import Mathlib

/-!
# Warehouse catalog service: shallow embedding and verified properties

The Go sources embedded here are `product.go` (the `Product` record and
`validateProduct`), `repo.go` (the in-memory storage backend), `realtime.go`
(the `Subscriber` capability), `service.go` (the catalog service) and, of
`http.go`, the error classification `writeError` and `handleError`.

Conventions of the embedding:

* a Go `error` result is an `Option GoError`, `none` being `nil`;
* a method with a pointer receiver takes the receiver's state and returns the
  new state next to its Go results;
* Go `int` is `Int` (no arithmetic is performed on ids or quantities, only
  comparisons), `float64` is its IEEE-754 bit fields, `time.Time` is an
  instant counted from the zero `time.Time`;
* `time.Now()` is an explicit argument `timeNow` of the calls that read the
  clock.
-/

namespace Warehouse

/-! ## Data model (`product.go`) -/

/-- IEEE-754 binary64 value given by its sign bit, its 11 exponent bits and
its 52 fraction bits: the Go type `float64`. -/
structure Float64 where
  sign : Bool
  exponent : Fin 2048
  mantissa : Fin 4503599627370496
  deriving DecidableEq, Repr

namespace Float64

/-- Not-a-number: all exponent bits set and a non-zero fraction. -/
def isNaN (x : Float64) : Bool :=
  x.exponent.val == 2047 && x.mantissa.val != 0

/-- Positive or negative zero. -/
def isZero (x : Float64) : Bool :=
  x.exponent.val == 0 && x.mantissa.val == 0

/-- Go comparison `x < 0`: false on NaN and on both zeros, otherwise the
sign bit. -/
def ltZero (x : Float64) : Bool :=
  !x.isNaN && !x.isZero && x.sign

/-- Go comparison `x >= 0`: false on NaN, true on both zeros, otherwise the
negated sign bit. -/
def geZero (x : Float64) : Bool :=
  !x.isNaN && (x.isZero || !x.sign)

/-- The zero value of `float64`, `+0`. -/
def zero : Float64 := ⟨false, 0, 0⟩

/-- The constant `10` as a `float64`: `1.25 * 2^3`. -/
def ten : Float64 := ⟨false, 1026, 1125899906842624⟩

/-- The constant `20` as a `float64`: `1.25 * 2^4`. -/
def twenty : Float64 := ⟨false, 1027, 1125899906842624⟩

/-- The value of `math.NaN()`, bits `0x7FF8000000000001`. -/
def nan : Float64 := ⟨false, 2047, 2251799813685249⟩

end Float64

/-- Instant of a `time.Time`, counted from the zero `time.Time`. -/
abbrev Time := Int

/-- The Go struct `Product`. -/
structure Product where
  Id : Int
  Brand : String
  Category : String
  Quantity : Int
  Price : Float64
  CreatedAt : Time
  UpdatedAt : Time
  deriving DecidableEq, Repr

/-- The zero value `Product{}`. -/
def Product.zero : Product :=
  { Id := 0, Brand := "", Category := "", Quantity := 0, Price := Float64.zero,
    CreatedAt := 0, UpdatedAt := 0 }

/-- Go error values of the package: the three sentinels of `repo.go`, the
`*validationError` of `product.go`, the two shapes `fmt.Errorf` builds
in `service.go` (with a wrapped error for `%w`, without one otherwise), and
the `*json.SyntaxError` the decoder of `http.go` returns on malformed
JSON. -/
inductive GoError where
  | errProductNotFound : GoError
  | errDuplicateId : GoError
  | errEmptyId : GoError
  | validationError (failures : List String) : GoError
  | wrapf (text : String) (inner : GoError) : GoError
  | errorf (text : String) : GoError
  | jsonSyntaxError (msg : String) (offset : Int) : GoError
  deriving DecidableEq, Repr

/-- What `errors.As(err, &ve)` with `ve *validationError` recovers: the
failures of the first `*validationError` on the unwrap chain. -/
def GoError.asValidationError : GoError → Option (List String)
  | .validationError failures => some failures
  | .wrapf _ inner => inner.asValidationError
  | _ => none

/-- Go `validateProduct`: five independent checks appending to `failures`. -/
def validateProduct (product : Product) : Option GoError :=
  let failures : List String := []
  let failures :=
    if product.Id < 0 then failures ++ ["Id should not be less than 0"] else failures
  let failures :=
    if product.Brand = "" then failures ++ ["Brand should not be empty"] else failures
  let failures :=
    if product.Category = "" then failures ++ ["Category should not be empty"] else failures
  let failures :=
    if product.Quantity < 0 then failures ++ ["Quantity should not be less than 0"]
    else failures
  let failures :=
    if product.Price.ltZero then failures ++ ["Price should not be less than 0"]
    else failures
  if failures.length = 0 then none else some (GoError.validationError failures)

/-- The rule table of the specification: each rule's trigger on `product`
next to its message, in the fixed order. -/
def validationRules (product : Product) : List (Bool × String) :=
  [ (decide (product.Id < 0), "Id should not be less than 0"),
    (product.Brand == "", "Brand should not be empty"),
    (product.Category == "", "Category should not be empty"),
    (decide (product.Quantity < 0), "Quantity should not be less than 0"),
    (product.Price.ltZero, "Price should not be less than 0") ]

/-- The messages of the rules that trigger, in rule order. -/
def triggeredFailures (product : Product) : List String :=
  ((validationRules product).filter (fun rule => rule.1)).map (fun rule => rule.2)

/-! ## In-memory storage backend (`repo.go`) -/

/-- The Go struct `InMemoryRepo`. -/
structure InMemoryRepo where
  products : List Product
  deriving DecidableEq, Repr

/-- Go `NewInMemoryRepo`. -/
def NewInMemoryRepo : InMemoryRepo := { products := [] }

/-- The scan shared by the four loops of `repo.go`,
`for idx, currentProduct := range r.products { if currentProduct.Id == id { ... return } }`:
the index and the element at which the loop body returns, or `none` when the
loop runs to its end. -/
def scanById (id : Int) : List Product → Option (Nat × Product)
  | [] => none
  | currentProduct :: rest =>
    if currentProduct.Id = id then some (0, currentProduct)
    else (scanById id rest).map (fun hit => (hit.1 + 1, hit.2))

/-- Go `(*InMemoryRepo).Create`. -/
def InMemoryRepo.Create (r : InMemoryRepo) (product : Product) :
    Option GoError × InMemoryRepo :=
  match scanById product.Id r.products with
  | some _ => (some GoError.errDuplicateId, r)
  | none => (none, { products := r.products ++ [product] })

/-- Go `(*InMemoryRepo).Update`: the hit's `CreatedAt` is copied into the
argument, which is then stored at the hit's index. -/
def InMemoryRepo.Update (r : InMemoryRepo) (product : Product) :
    Option GoError × InMemoryRepo :=
  match scanById product.Id r.products with
  | some (idx, currentProduct) =>
    (none, { products :=
      r.products.set idx { product with CreatedAt := currentProduct.CreatedAt } })
  | none => (some GoError.errProductNotFound, r)

/-- Go `(*InMemoryRepo).GetById`. -/
def InMemoryRepo.GetById (r : InMemoryRepo) (id : Int) :
    (Product × Option GoError) × InMemoryRepo :=
  match scanById id r.products with
  | some (_, currentProduct) => ((currentProduct, none), r)
  | none => ((Product.zero, some GoError.errProductNotFound), r)

/-- Go `(*InMemoryRepo).GetAll`: a copy of the stored slice. -/
def InMemoryRepo.GetAll (r : InMemoryRepo) :
    (List Product × Option GoError) × InMemoryRepo :=
  ((r.products, none), r)

/-- Go `(*InMemoryRepo).Delete`:
`r.products = append(r.products[:idx], r.products[idx+1:]...)` at the hit. -/
def InMemoryRepo.Delete (r : InMemoryRepo) (id : Int) :
    Option GoError × InMemoryRepo :=
  match scanById id r.products with
  | some (idx, _) =>
    (none, { products := r.products.take idx ++ r.products.drop (idx + 1) })
  | none => (some GoError.errProductNotFound, r)

/-! ## Storage port and subscriber capability (`repo.go`, `realtime.go`) -/

/-- The Go interface `Repo`: the five storage operations over a backend whose
state has type `σ`. -/
structure Repo (σ : Type) where
  Create : σ → Product → Option GoError × σ
  Update : σ → Product → Option GoError × σ
  GetById : σ → Int → (Product × Option GoError) × σ
  GetAll : σ → (List Product × Option GoError) × σ
  Delete : σ → Int → Option GoError × σ

/-- The method set of `*InMemoryRepo` as a `Repo`. -/
def inMemoryRepo : Repo InMemoryRepo :=
  { Create := InMemoryRepo.Create
    Update := InMemoryRepo.Update
    GetById := InMemoryRepo.GetById
    GetAll := InMemoryRepo.GetAll
    Delete := InMemoryRepo.Delete }

/-- A value of the Go interface `Subscriber`, seen through its two methods:
`id` is what `Id()` returns, and `received` lists, oldest first, the
arguments of the `Update` calls made on it (the recording subscriber of
`service_test.go` keeps the last of them and their number). -/
structure Subscriber where
  id : String
  received : List (List Product)
  deriving DecidableEq, Repr

/-- Go `Subscriber.Id`. -/
def Subscriber.Id (sub : Subscriber) : String := sub.id

/-- Go `Subscriber.Update`: the subscriber is handed `products`. -/
def Subscriber.Update (sub : Subscriber) (products : List Product) : Subscriber :=
  { sub with received := sub.received ++ [products] }

/-! ## Catalog service (`service.go`) -/

/-- The Go struct `ProductServiceImpl`: the state behind its `repo` field and
the subscriber registry. -/
structure ProductServiceImpl (σ : Type) where
  repo : σ
  subscribers : List Subscriber

namespace ProductServiceImpl

variable {σ : Type}

/-- Go `NewProductServiceImpl`. -/
def new (repo : σ) : ProductServiceImpl σ :=
  { repo := repo, subscribers := [] }

/-- Go `(*ProductServiceImpl).GetAll`. -/
def GetAll (port : Repo σ) (s : ProductServiceImpl σ) :
    (List Product × Option GoError) × ProductServiceImpl σ :=
  let out := port.GetAll s.repo
  (out.1, { s with repo := out.2 })

/-- Go `(*ProductServiceImpl).GetById`. -/
def GetById (port : Repo σ) (s : ProductServiceImpl σ) (id : Int) :
    (Product × Option GoError) × ProductServiceImpl σ :=
  let out := port.GetById s.repo id
  (out.1, { s with repo := out.2 })

/-- Go `(*ProductServiceImpl).notify`: on a failed `GetAll` the error is
logged and nothing is delivered, otherwise every registry entry is handed
the fetched products, in registry order. -/
def notify (port : Repo σ) (s : ProductServiceImpl σ) : ProductServiceImpl σ :=
  match GetAll port s with
  | ((_, some _), s1) => s1
  | ((products, none), s1) =>
    { s1 with subscribers := s1.subscribers.map (fun sub => sub.Update products) }

/-- Go `(*ProductServiceImpl).Create`; `timeNow` is the reading of
`time.Now()`. -/
def Create (port : Repo σ) (s : ProductServiceImpl σ) (product : Product)
    (timeNow : Time) : Option GoError × ProductServiceImpl σ :=
  match validateProduct product with
  | some err => (some (GoError.wrapf "create product: " err), s)
  | none =>
    let product := { product with CreatedAt := timeNow }
    let product := { product with UpdatedAt := timeNow }
    match port.Create s.repo product with
    | (some err, repo1) => (some err, { s with repo := repo1 })
    | (none, repo1) => (none, notify port { s with repo := repo1 })

/-- Go `(*ProductServiceImpl).Update`; `timeNow` is the reading of
`time.Now()`. -/
def Update (port : Repo σ) (s : ProductServiceImpl σ) (product : Product)
    (timeNow : Time) : Option GoError × ProductServiceImpl σ :=
  match validateProduct product with
  | some err => (some (GoError.wrapf "update product: " err), s)
  | none =>
    let product := { product with UpdatedAt := timeNow }
    match port.Update s.repo product with
    | (some err, repo1) => (some err, { s with repo := repo1 })
    | (none, repo1) => (none, notify port { s with repo := repo1 })

/-- Go `(*ProductServiceImpl).Delete`. -/
def Delete (port : Repo σ) (s : ProductServiceImpl σ) (id : Int) :
    Option GoError × ProductServiceImpl σ :=
  match port.Delete s.repo id with
  | (some err, repo1) => (some err, { s with repo := repo1 })
  | (none, repo1) => (none, notify port { s with repo := repo1 })

/-- Go `(*ProductServiceImpl).subscribe`. -/
def subscribe (s : ProductServiceImpl σ) (subscriber : Subscriber) :
    Option GoError × ProductServiceImpl σ :=
  if subscriber.Id = "" then (some GoError.errEmptyId, s)
  else (none, { s with subscribers := s.subscribers ++ [subscriber] })

/-- The scan of the loop of `unsubscribe`: the index of the first registry
entry whose `Id()` equals `subscriberId`. -/
def scanSubscribers (subscriberId : String) : List Subscriber → Option Nat
  | [] => none
  | sub :: rest =>
    if subscriberId = sub.Id then some 0
    else (scanSubscribers subscriberId rest).map (fun index => index + 1)

/-- Go `(*ProductServiceImpl).unsubscribe`. -/
def unsubscribe (s : ProductServiceImpl σ) (subscriber : Subscriber) :
    Option GoError × ProductServiceImpl σ :=
  if subscriber.Id = "" then (some GoError.errEmptyId, s)
  else
    let subscriberId := subscriber.Id
    match scanSubscribers subscriberId s.subscribers with
    | some index =>
      (none, { s with subscribers :=
        s.subscribers.take index ++ s.subscribers.drop (index + 1) })
    | none =>
      (some (GoError.errorf ("subscriber with " ++ subscriberId ++ " id not found")), s)

end ProductServiceImpl

/-! ## Call sequences -/

/-- One mutating call on the storage backend. -/
inductive RepoCall where
  | create (product : Product) : RepoCall
  | update (product : Product) : RepoCall
  | delete (id : Int) : RepoCall
  deriving DecidableEq, Repr

/-- The in-memory backend after one mutating call, with the call's error. -/
def InMemoryRepo.call (r : InMemoryRepo) : RepoCall → Option GoError × InMemoryRepo
  | .create product => r.Create product
  | .update product => r.Update product
  | .delete id => r.Delete id

/-- The in-memory backend after a sequence of mutating calls. -/
def InMemoryRepo.run (r : InMemoryRepo) : List RepoCall → InMemoryRepo
  | [] => r
  | c :: rest => InMemoryRepo.run (r.call c).2 rest

/-- One mutating call on the service, with the clock reading it takes. -/
inductive ServiceCall where
  | create (product : Product) (timeNow : Time) : ServiceCall
  | update (product : Product) (timeNow : Time) : ServiceCall
  | delete (id : Int) : ServiceCall
  deriving DecidableEq, Repr

/-- The service after one mutating call, with the call's error. -/
def ProductServiceImpl.call {σ : Type} (port : Repo σ) (s : ProductServiceImpl σ) :
    ServiceCall → Option GoError × ProductServiceImpl σ
  | .create product timeNow => s.Create port product timeNow
  | .update product timeNow => s.Update port product timeNow
  | .delete id => s.Delete port id

/-- The service after a sequence of mutating calls. -/
def ProductServiceImpl.run {σ : Type} (port : Repo σ) (s : ProductServiceImpl σ) :
    List ServiceCall → ProductServiceImpl σ
  | [] => s
  | c :: rest => ProductServiceImpl.run port (s.call port c).2 rest

/-- Whether some `Delete(id)` call of the sequence, run from `s`, returns
`nil`. -/
def ProductServiceImpl.deletes {σ : Type} (port : Repo σ) (id : Int) :
    ProductServiceImpl σ → List ServiceCall → Bool
  | _, [] => false
  | s, c :: rest =>
    (match c with
      | .delete j => decide (j = id) && (s.call port c).1.isNone
      | _ => false)
    || ProductServiceImpl.deletes port id (s.call port c).2 rest

/-- The ids stored in the in-memory backend, in storage order. -/
def InMemoryRepo.ids (r : InMemoryRepo) : List Int :=
  r.products.map (fun q => q.Id)

/-! ## Concrete states used in the examples -/

/-- A product with the given id, brand, category, quantity and price and zero
timestamps. -/
def mkProduct (id : Int) (brand category : String) (quantity : Int) (price : Float64) :
    Product :=
  { Id := id, Brand := brand, Category := category, Quantity := quantity, Price := price,
    CreatedAt := 0, UpdatedAt := 0 }

/-- The two products `(1,A,A,1,10)` and `(2,B,B,2,20)` the tests start from. -/
def existing : List Product :=
  [mkProduct 1 "A" "A" 1 Float64.ten, mkProduct 2 "B" "B" 2 Float64.twenty]

/-- The failing candidate `id=-3, brand="C", category="", quantity=-1, price=20`. -/
def invalidCandidate : Product := mkProduct (-3) "C" "" (-1) Float64.twenty

/-- Some stored product has id `i`, and every stored product with id `i` was
created at `t`. -/
def StampedAt (i : Int) (t : Time) (ps : List Product) : Prop :=
  (∃ q ∈ ps, q.Id = i) ∧ ∀ q ∈ ps, q.Id = i → q.CreatedAt = t

/-- The two-product store of the tests with one subscriber "B" that has
received nothing yet. -/
def startService : ProductServiceImpl InMemoryRepo :=
  { repo := { products := existing }, subscribers := [{ id := "B", received := [] }] }

/-- A later history: an update of id 3 carrying its own `CreatedAt`, a create
of id 4, an update of id 1, a delete of id 1 and a second update of id 3. -/
def laterCalls : List ServiceCall :=
  [ ServiceCall.update
      { Id := 3, Brand := "D", Category := "D", Quantity := 4, Price := Float64.ten,
        CreatedAt := 999, UpdatedAt := 0 } 60,
    ServiceCall.create (mkProduct 4 "E" "E" 1 Float64.ten) 70,
    ServiceCall.update (mkProduct 1 "F" "F" 1 Float64.ten) 80,
    ServiceCall.delete 1,
    ServiceCall.update
      { Id := 3, Brand := "G", Category := "G", Quantity := 0, Price := Float64.zero,
        CreatedAt := 5, UpdatedAt := 0 } 90 ]

/-- Number of calls of the sequence, run from `s`, that return `nil`. -/
def ProductServiceImpl.successes {σ : Type} (port : Repo σ) :
    ProductServiceImpl σ → List ServiceCall → Nat
  | _, [] => 0
  | s, c :: rest =>
    (if (s.call port c).1.isNone then 1 else 0)
      + ProductServiceImpl.successes port (s.call port c).2 rest

/-- An identity paired with a number of received snapshots. -/
def Subscriber.tally (extra : Nat) (sub : Subscriber) : String × Nat :=
  (sub.Id, sub.received.length + extra)

/-- A subscriber with the given identity that has received nothing. -/
def freshSubscriber (id : String) : Subscriber := { id := id, received := [] }

/-- A service on the two-product store whose registry holds subscribers "X"
and "Y", in this order. -/
def twoSubscribers : ProductServiceImpl InMemoryRepo :=
  { repo := { products := existing },
    subscribers := [freshSubscriber "X", freshSubscriber "Y"] }

/-- A history of five calls of which three succeed: a create of id 3, a
rejected create of id 3 again, an update of id 1, an update of the missing
id 9 and a delete of id 2. -/
def mixedCalls : List ServiceCall :=
  [ ServiceCall.create (mkProduct 3 "C" "C" 3 Float64.twenty) 50,
    ServiceCall.create (mkProduct 3 "C" "C" 3 Float64.twenty) 51,
    ServiceCall.update (mkProduct 1 "F" "F" 1 Float64.ten) 52,
    ServiceCall.update (mkProduct 9 "F" "F" 1 Float64.ten) 53,
    ServiceCall.delete 2 ]

/-- A service on the two-product store whose registry holds two entries of
identity "X" around one of identity "Y"; the later "X" entry has already
received one snapshot. -/
def duplicateRegistry : ProductServiceImpl InMemoryRepo :=
  { repo := { products := existing },
    subscribers :=
      [freshSubscriber "X", freshSubscriber "Y", { id := "X", received := [existing] }] }

/-! ## Error classification of the transport (`http.go`) -/

/-- Go `errors.Is(err, target)` for a sentinel `target`: some error on the
unwrap chain of `err` equals `target`. -/
def GoError.is : GoError → GoError → Bool
  | .wrapf text inner, target =>
    decide (GoError.wrapf text inner = target) || inner.is target
  | err, target => decide (err = target)

/-- What `errors.As(err, &se)` with `se *json.SyntaxError` reports: whether
some error on the unwrap chain is a `*json.SyntaxError`. -/
def GoError.asJsonSyntaxError : GoError → Bool
  | .jsonSyntaxError _ _ => true
  | .wrapf _ inner => inner.asJsonSyntaxError
  | _ => false

/-- What a handler has written to its `http.ResponseWriter`: the status code
passed to `WriteHeader`, and the `Errors` of the `ErrorResponse` encoded
as the body, `none` when no body is written. -/
structure HttpResponse where
  statusCode : Nat
  errors : Option (List String)
  deriving DecidableEq, Repr

/-- Go `http.StatusBadRequest`. -/
def StatusBadRequest : Nat := 400

/-- Go `http.StatusNotFound`. -/
def StatusNotFound : Nat := 404

/-- Go `http.StatusConflict`. -/
def StatusConflict : Nat := 409

/-- Go `http.StatusInternalServerError`. -/
def StatusInternalServerError : Nat := 500

/-- Go `writeError`: the header is written, and the body only when at least
one error string is given. -/
def writeError (statusCode : Nat) (errors : List String) : HttpResponse :=
  if errors.length = 0 then { statusCode := statusCode, errors := none }
  else { statusCode := statusCode, errors := some errors }

/-- Go `handleError`. -/
def handleError (err : GoError) : HttpResponse :=
  if err.asJsonSyntaxError then writeError StatusBadRequest ["invalid json"]
  else if err.is GoError.errDuplicateId then writeError StatusConflict ["product exists"]
  else if err.is GoError.errProductNotFound then
    writeError StatusNotFound ["product not found"]
  else
    match err.asValidationError with
    | some failures => writeError StatusBadRequest failures
    | none => { statusCode := StatusInternalServerError, errors := none }

/-! ## Clock readings and the end-to-end scenario -/

/-- The readings of `time.Now()` taken while the calls run, in order:
`Create` and `Update` read the clock once, after the candidate has passed
validation, and `Delete` does not read it. -/
def clockReadings : List ServiceCall → List Time
  | [] => []
  | ServiceCall.create product timeNow :: rest =>
    if validateProduct product = none then timeNow :: clockReadings rest
    else clockReadings rest
  | ServiceCall.update product timeNow :: rest =>
    if validateProduct product = none then timeNow :: clockReadings rest
    else clockReadings rest
  | ServiceCall.delete _ :: rest => clockReadings rest

/-- Every product of `ps` was created no later than it was last updated and
no later than each of the instants `later`. -/
def TimeOrdered (later : List Time) (ps : List Product) : Prop :=
  ∀ q ∈ ps, q.CreatedAt ≤ q.UpdatedAt ∧ ∀ t ∈ later, q.CreatedAt ≤ t

/-- The constant `30` as a `float64`: `1.875 * 2^4`. -/
def Float64.thirty : Float64 := ⟨false, 1027, 3940649673949184⟩

/-- The service of the end-to-end scenario: built on the two-product store,
with observer "X" subscribed. -/
def scenarioStart : ProductServiceImpl InMemoryRepo :=
  ((ProductServiceImpl.new { products := existing }).subscribe (freshSubscriber "X")).2

/-- The product `(3,C,C,3,30)` as stored by a create at clock reading `t`. -/
def productThree (t : Time) : Product :=
  { Id := 3, Brand := "C", Category := "C", Quantity := 3, Price := Float64.thirty,
    CreatedAt := t, UpdatedAt := t }

/-! ## Two overlapping `Create` calls on the in-memory backend -/

/-- Where a goroutine stands in `(*InMemoryRepo).Create`: before the scanning
loop, between the loop and the `append`, or returned with its error. -/
inductive CreateStage where
  | atScan : CreateStage
  | atAppend : CreateStage
  | returned (err : Option GoError) : CreateStage
  deriving DecidableEq, Repr

/-- The next part of `(*InMemoryRepo).Create` run by one goroutine on the
shared backend: from `atScan` the whole loop, which returns `errDuplicateId`
at a hit and otherwise falls through; from `atAppend` the statement
`r.products = append(r.products, product)` and `return nil`. The method
takes no lock, so another goroutine may run between the two parts. -/
def InMemoryRepo.createStep (r : InMemoryRepo) (product : Product) :
    CreateStage → InMemoryRepo × CreateStage
  | CreateStage.atScan =>
    match scanById product.Id r.products with
    | some _ => (r, CreateStage.returned (some GoError.errDuplicateId))
    | none => (r, CreateStage.atAppend)
  | CreateStage.atAppend =>
    ({ products := r.products ++ [product] }, CreateStage.returned none)
  | CreateStage.returned err => (r, CreateStage.returned err)

/-- Two goroutines, each inside one `Create` call on the same backend. -/
structure TwoCreates where
  repo : InMemoryRepo
  first : CreateStage
  second : CreateStage
  deriving DecidableEq, Repr

/-- The scheduler lets the first goroutine (`true`) or the second (`false`)
run its next part. -/
def TwoCreates.step (productA productB : Product) (w : TwoCreates) (turn : Bool) :
    TwoCreates :=
  if turn then
    let out := w.repo.createStep productA w.first
    { repo := out.1, first := out.2, second := w.second }
  else
    let out := w.repo.createStep productB w.second
    { repo := out.1, first := w.first, second := out.2 }

/-- The two goroutines under a schedule, from both standing before the loop. -/
def TwoCreates.run (productA productB : Product) (r : InMemoryRepo)
    (schedule : List Bool) : TwoCreates :=
  schedule.foldl (TwoCreates.step productA productB)
    { repo := r, first := CreateStage.atScan, second := CreateStage.atScan }

/-! ## Delivery loop, failing port and registrations -/

/-- The loop of `notify`, `for _, sub := range s.subscribers { sub.Update(products) }`:
the entries after their `Update` call, and the identities of the entries in
the order in which `Update` is called on them. -/
def deliverAll (products : List Product) : List Subscriber → List Subscriber × List String
  | [] => ([], [])
  | sub :: rest =>
    let out := deliverAll products rest
    (sub.Update products :: out.1, sub.Id :: out.2)

/-- A storage port that mutates and reads by id like the in-memory backend
and whose `GetAll` always fails. -/
def failingGetAllRepo : Repo InMemoryRepo :=
  { Create := InMemoryRepo.Create
    Update := InMemoryRepo.Update
    GetById := InMemoryRepo.GetById
    GetAll := fun r => (([], some (GoError.errorf "get all failed")), r)
    Delete := InMemoryRepo.Delete }

/-- Number of registry entries whose identity is `i`. -/
def registrations (i : String) (subs : List Subscriber) : Nat :=
  (subs.filter (fun e => e.Id == i)).length

/-- Number of snapshots received by the registry entries of identity `i`,
all together. -/
def receivedBy (i : String) (subs : List Subscriber) : Nat :=
  ((subs.filter (fun e => e.Id == i)).map (fun e => e.received.length)).sum

/-- A service on the empty store whose registry holds subscribers "X" and
"Y". -/
def emptyService : ProductServiceImpl InMemoryRepo :=
  { repo := NewInMemoryRepo, subscribers := [freshSubscriber "X", freshSubscriber "Y"] }

/-! ## Lemmas on the storage scan -/

theorem scanById_eq_none_iff (id : Int) (ps : List Product) :
    scanById id ps = none ↔ ∀ q ∈ ps, q.Id ≠ id := by
  induction ps with
  | nil => simp [scanById]
  | cons c rest ih =>
    by_cases h : c.Id = id
    · simp [scanById, h]
    · simp [scanById, h, ih]

theorem scanById_append_hit (id : Int) (pre post : List Product) (cur : Product)
    (hpre : ∀ q ∈ pre, q.Id ≠ id) (hcur : cur.Id = id) :
    scanById id (pre ++ cur :: post) = some (pre.length, cur) := by
  induction pre with
  | nil => simp [scanById, hcur]
  | cons c rest ih =>
    have hc : c.Id ≠ id := hpre c (List.mem_cons_self _ _)
    have hrest : ∀ q ∈ rest, q.Id ≠ id := fun q hq => hpre q (List.mem_cons_of_mem _ hq)
    simp [scanById, hc, ih hrest]

theorem scanById_eq_some (id : Int) (ps : List Product) (idx : Nat) (cur : Product)
    (h : scanById id ps = some (idx, cur)) :
    ∃ pre post, ps = pre ++ cur :: post ∧ pre.length = idx ∧ cur.Id = id ∧
      ∀ q ∈ pre, q.Id ≠ id := by
  induction ps generalizing idx with
  | nil => simp [scanById] at h
  | cons c rest ih =>
    by_cases hc : c.Id = id
    · simp [scanById, hc] at h
      obtain ⟨h1, h2⟩ := h
      subst h1; subst h2
      exact ⟨[], rest, by simp, rfl, hc, by simp⟩
    · simp [scanById, hc] at h
      obtain ⟨i, hi, hidx⟩ := h
      obtain ⟨pre, post, hps, hlen, hid, hpre⟩ := ih i hi
      refine ⟨c :: pre, post, by simp [hps], by simp [hlen, hidx], hid, ?_⟩
      intro q hq
      rcases List.mem_cons.mp hq with rfl | hq
      · exact hc
      · exact hpre q hq

theorem exists_first_of_mem (id : Int) (ps : List Product) (h : ∃ q ∈ ps, q.Id = id) :
    ∃ pre cur post, ps = pre ++ cur :: post ∧ cur.Id = id ∧ ∀ q ∈ pre, q.Id ≠ id := by
  cases hs : scanById id ps with
  | none =>
    obtain ⟨q, hq, hid⟩ := h
    exact absurd hid ((scanById_eq_none_iff id ps).mp hs q hq)
  | some hit =>
    obtain ⟨idx, cur⟩ := hit
    obtain ⟨pre, post, hps, _, hid, hpre⟩ := scanById_eq_some id ps idx cur hs
    exact ⟨pre, cur, post, hps, hid, hpre⟩

theorem set_length_append (pre post : List Product) (cur new : Product) :
    (pre ++ cur :: post).set pre.length new = pre ++ new :: post := by
  induction pre with
  | nil => simp
  | cons c rest ih => simp

theorem take_drop_length_append (pre post : List Product) (cur : Product) :
    (pre ++ cur :: post).take pre.length ++ (pre ++ cur :: post).drop (pre.length + 1)
      = pre ++ post := by
  induction pre with
  | nil => simp
  | cons c rest ih => simp

/-! ## Validation (`validateProduct`) -/

theorem ltZero_eq_false_iff (x : Float64) :
    x.ltZero = false ↔ (x.geZero = true ∨ x.isNaN = true) := by
  unfold Float64.ltZero Float64.geZero
  cases x.isNaN <;> cases x.isZero <;> cases x.sign <;> simp

theorem validateProduct_eq (p : Product) :
    validateProduct p =
      (if triggeredFailures p = [] then none
       else some (GoError.validationError (triggeredFailures p))) := by
  unfold validateProduct triggeredFailures validationRules
  by_cases h1 : p.Id < 0 <;> by_cases h2 : p.Brand = "" <;> by_cases h3 : p.Category = ""
    <;> by_cases h4 : p.Quantity < 0 <;> cases h5 : p.Price.ltZero
    <;> simp [h1, h2, h3, h4, h5]

/-- C1 (as amended): `validateProduct` reports exactly the messages of the
rules that trigger, in rule order, as a validation error when there is one,
and returns nil exactly when the id is at least 0, brand and category are
non-empty, the quantity is at least 0 and the price is not below 0, that is,
the price is at least 0 or is NaN. -/
theorem validateProduct_reports_triggered (p : Product) :
    validateProduct p =
        (if triggeredFailures p = [] then none
         else some (GoError.validationError (triggeredFailures p))) ∧
      (validateProduct p = none ↔
        (0 ≤ p.Id ∧ p.Brand ≠ "" ∧ p.Category ≠ "" ∧ 0 ≤ p.Quantity ∧
          (p.Price.geZero = true ∨ p.Price.isNaN = true))) := by
  refine ⟨validateProduct_eq p, ?_⟩
  rw [← ltZero_eq_false_iff]
  unfold validateProduct
  by_cases h1 : p.Id < 0 <;> by_cases h2 : p.Brand = "" <;> by_cases h3 : p.Category = ""
    <;> by_cases h4 : p.Quantity < 0 <;> cases h5 : p.Price.ltZero
    <;> simp [h1, h2, h3, h4, h5]
  omega

/-- C1, counterexample: a product with id 0, brand and category "A",
quantity 0 and a NaN price passes validation although its price is not
at least 0. -/
theorem validateProduct_nan_price_passes :
    validateProduct (mkProduct 0 "A" "A" 0 Float64.nan) = none ∧
      (mkProduct 0 "A" "A" 0 Float64.nan).Price.geZero = false := by
  constructor <;> decide

/-! ## Validation failures at the service (`Create`, `Update`) -/

/-- C2: when the candidate fails validation, `Create` and `Update` on an
in-memory store each return an error from which `errors.As` recovers the
validator's failure list, the store and every subscriber's received
snapshots are as before, and the candidate id=-3, brand="C", category="",
quantity=-1, price=20 fails with exactly the id, category and quantity
messages. -/
theorem service_validation_failure (s : ProductServiceImpl InMemoryRepo) (p : Product)
    (timeNow : Time) (h : validateProduct p ≠ none) :
    (∃ failures, validateProduct p = some (GoError.validationError failures) ∧
      (∃ e, (s.Create inMemoryRepo p timeNow).1 = some e ∧
        e.asValidationError = some failures) ∧
      (∃ e, (s.Update inMemoryRepo p timeNow).1 = some e ∧
        e.asValidationError = some failures)) ∧
      (s.Create inMemoryRepo p timeNow).2.repo.products = s.repo.products ∧
      (s.Create inMemoryRepo p timeNow).2.subscribers = s.subscribers ∧
      (s.Update inMemoryRepo p timeNow).2.repo.products = s.repo.products ∧
      (s.Update inMemoryRepo p timeNow).2.subscribers = s.subscribers ∧
      validateProduct invalidCandidate = some (GoError.validationError
        ["Id should not be less than 0", "Category should not be empty",
          "Quantity should not be less than 0"]) := by
  have hv := validateProduct_eq p
  by_cases ht : triggeredFailures p = []
  · rw [if_pos ht] at hv
    exact absurd hv h
  · rw [if_neg ht] at hv
    refine ⟨⟨triggeredFailures p, hv, ?_, ?_⟩, ?_, ?_, ?_, ?_, by decide⟩
    · exact ⟨GoError.wrapf "create product: " (GoError.validationError (triggeredFailures p)),
        by simp [ProductServiceImpl.Create, hv], by simp [GoError.asValidationError]⟩
    · exact ⟨GoError.wrapf "update product: " (GoError.validationError (triggeredFailures p)),
        by simp [ProductServiceImpl.Update, hv], by simp [GoError.asValidationError]⟩
    all_goals simp [ProductServiceImpl.Create, ProductServiceImpl.Update, hv]

/-- C2, witness: the failing candidate on the two-product store with one
subscriber. -/
theorem service_validation_failure_witness :
    validateProduct invalidCandidate ≠ none ∧
      (ProductServiceImpl.Create inMemoryRepo
        { repo := { products := existing }, subscribers := [{ id := "B", received := [] }] }
        invalidCandidate 7).2.subscribers = [{ id := "B", received := [] }] :=
  ⟨by decide,
    (service_validation_failure
      { repo := { products := existing }, subscribers := [{ id := "B", received := [] }] }
      invalidCandidate 7 (by decide)).2.2.1⟩

/-! ## In-memory `Create` -/

theorem create_of_absent (r : InMemoryRepo) (p : Product)
    (h : ∀ q ∈ r.products, q.Id ≠ p.Id) :
    r.Create p = (none, { products := r.products ++ [p] }) := by
  unfold InMemoryRepo.Create
  rw [(scanById_eq_none_iff p.Id r.products).mpr h]

theorem create_of_present (r : InMemoryRepo) (p : Product)
    (h : ∃ q ∈ r.products, q.Id = p.Id) :
    r.Create p = (some GoError.errDuplicateId, r) := by
  unfold InMemoryRepo.Create
  cases hs : scanById p.Id r.products with
  | none =>
    obtain ⟨q, hq, hid⟩ := h
    exact absurd hid ((scanById_eq_none_iff p.Id r.products).mp hs q hq)
  | some hit => rfl

theorem absent_or_present (id : Int) (ps : List Product) :
    (∀ q ∈ ps, q.Id ≠ id) ∨ ∃ q ∈ ps, q.Id = id := by
  by_cases h : ∃ q ∈ ps, q.Id = id
  · exact Or.inr h
  · left
    intro q hq hid
    exact h ⟨q, hq, hid⟩

/-- C3: in-memory `Create` returns `errDuplicateId` exactly when a stored
product already has the candidate's id, and then leaves the stored list
unchanged. -/
theorem create_duplicate_iff (r : InMemoryRepo) (p : Product) :
    ((r.Create p).1 = some GoError.errDuplicateId ↔ ∃ q ∈ r.products, q.Id = p.Id) ∧
      ((∃ q ∈ r.products, q.Id = p.Id) → (r.Create p).2 = r) := by
  rcases absent_or_present p.Id r.products with ha | hp
  · rw [create_of_absent r p ha]
    refine ⟨⟨fun h => by simp at h, ?_⟩, ?_⟩
    all_goals
      rintro ⟨q, hq, hid⟩
      exact absurd hid (ha q hq)
  · rw [create_of_present r p hp]
    exact ⟨⟨fun _ => hp, fun _ => rfl⟩, fun _ => rfl⟩

/-- C3, witness: creating id 2 again on the two-product store. -/
theorem create_duplicate_iff_witness :
    (InMemoryRepo.Create { products := existing } (mkProduct 2 "B" "B" 2 Float64.twenty)).2
      = { products := existing } :=
  (create_duplicate_iff { products := existing } (mkProduct 2 "B" "B" 2 Float64.twenty)).2
    ⟨mkProduct 2 "B" "B" 2 Float64.twenty, by decide, rfl⟩

/-- C4: when no stored product has the candidate's id, in-memory `Create`
returns nil and the stored list becomes the old list followed by the
candidate itself, timestamps included. -/
theorem create_appends (r : InMemoryRepo) (p : Product)
    (h : ∀ q ∈ r.products, q.Id ≠ p.Id) :
    r.Create p = (none, { products := r.products ++ [p] }) :=
  create_of_absent r p h

/-- C4, witness: creating id 3 with set timestamps on the two-product
store. -/
theorem create_appends_witness :
    InMemoryRepo.Create { products := existing }
        { Id := 3, Brand := "C", Category := "C", Quantity := 3, Price := Float64.twenty,
          CreatedAt := 5, UpdatedAt := 6 }
      = (none, { products := existing ++
          [{ Id := 3, Brand := "C", Category := "C", Quantity := 3, Price := Float64.twenty,
             CreatedAt := 5, UpdatedAt := 6 }] }) :=
  create_appends { products := existing } _ (by decide)

/-! ## Shapes of the in-memory mutations -/

theorem update_of_first (r : InMemoryRepo) (p : Product) (pre post : List Product)
    (cur : Product) (hps : r.products = pre ++ cur :: post)
    (hpre : ∀ q ∈ pre, q.Id ≠ p.Id) (hcur : cur.Id = p.Id) :
    r.Update p
      = (none, { products := pre ++ { p with CreatedAt := cur.CreatedAt } :: post }) := by
  unfold InMemoryRepo.Update
  rw [hps, scanById_append_hit p.Id pre post cur hpre hcur]
  simp only [set_length_append]

theorem update_of_absent (r : InMemoryRepo) (p : Product)
    (h : ∀ q ∈ r.products, q.Id ≠ p.Id) :
    r.Update p = (some GoError.errProductNotFound, r) := by
  unfold InMemoryRepo.Update
  rw [(scanById_eq_none_iff p.Id r.products).mpr h]

theorem delete_of_first (r : InMemoryRepo) (id : Int) (pre post : List Product)
    (cur : Product) (hps : r.products = pre ++ cur :: post)
    (hpre : ∀ q ∈ pre, q.Id ≠ id) (hcur : cur.Id = id) :
    r.Delete id = (none, { products := pre ++ post }) := by
  unfold InMemoryRepo.Delete
  rw [hps, scanById_append_hit id pre post cur hpre hcur]
  simp only [take_drop_length_append]

theorem delete_of_absent (r : InMemoryRepo) (id : Int)
    (h : ∀ q ∈ r.products, q.Id ≠ id) :
    r.Delete id = (some GoError.errProductNotFound, r) := by
  unfold InMemoryRepo.Delete
  rw [(scanById_eq_none_iff id r.products).mpr h]

/-! ## Uniqueness of stored ids -/

theorem call_ids_nodup (r : InMemoryRepo) (c : RepoCall) (h : r.ids.Nodup) :
    (r.call c).2.ids.Nodup := by
  cases c with
  | create p =>
    rcases absent_or_present p.Id r.products with ha | hp
    · simp only [InMemoryRepo.call, create_of_absent r p ha, InMemoryRepo.ids, List.map_append,
        List.map_cons, List.map_nil]
      refine List.Nodup.append h (List.nodup_singleton _) ?_
      intro a ha1 ha2
      obtain ⟨q, hq, hqa⟩ := List.mem_map.mp ha1
      rw [List.mem_singleton] at ha2
      exact ha q hq (hqa.trans ha2)
    · simp only [InMemoryRepo.call, create_of_present r p hp]
      exact h
  | update p =>
    rcases absent_or_present p.Id r.products with ha | hp
    · simp only [InMemoryRepo.call, update_of_absent r p ha]
      exact h
    · obtain ⟨pre, cur, post, hps, hcur, hpre⟩ := exists_first_of_mem p.Id r.products hp
      simp only [InMemoryRepo.call, update_of_first r p pre post cur hps hpre hcur]
      simp only [InMemoryRepo.ids, hps, List.map_append, List.map_cons] at h ⊢
      rw [hcur] at h
      exact h
  | delete id =>
    rcases absent_or_present id r.products with ha | hp
    · simp only [InMemoryRepo.call, delete_of_absent r id ha]
      exact h
    · obtain ⟨pre, cur, post, hps, hcur, hpre⟩ := exists_first_of_mem id r.products hp
      simp only [InMemoryRepo.call, delete_of_first r id pre post cur hps hpre hcur]
      simp only [InMemoryRepo.ids, hps, List.map_append, List.map_cons] at h ⊢
      exact h.sublist ((List.Sublist.refl _).append (List.sublist_cons_self _ _))

theorem run_ids_nodup (calls : List RepoCall) (r : InMemoryRepo) (h : r.ids.Nodup) :
    (r.run calls).ids.Nodup := by
  induction calls generalizing r with
  | nil => exact h
  | cons c rest ih => exact ih (r.call c).2 (call_ids_nodup r c h)

/-- C5: pairwise distinct stored ids stay pairwise distinct after any one
`Create`, `Update` or `Delete` call on the in-memory backend, whether it
succeeds or fails, and after any sequence of such calls; every state reached
from `NewInMemoryRepo()` by such a sequence has pairwise distinct ids. -/
theorem ids_stay_distinct (r : InMemoryRepo) (c : RepoCall) (calls : List RepoCall)
    (h : r.ids.Nodup) :
    (r.call c).2.ids.Nodup ∧ (r.run calls).ids.Nodup ∧
      (NewInMemoryRepo.run calls).ids.Nodup :=
  ⟨call_ids_nodup r c h, run_ids_nodup calls r h,
    run_ids_nodup calls NewInMemoryRepo List.nodup_nil⟩

/-- C5, witness: the two-product store under a failing create, and the empty
store under create 1, create 1 again, create 2, delete 1. -/
theorem ids_stay_distinct_witness :
    (InMemoryRepo.ids { products := existing }).Nodup ∧
      ((InMemoryRepo.call { products := existing }
        (RepoCall.create (mkProduct 2 "Z" "Z" 9 Float64.ten))).2.ids.Nodup ∧
      (InMemoryRepo.run { products := existing }
        [RepoCall.create (mkProduct 1 "A" "A" 1 Float64.ten),
          RepoCall.create (mkProduct 1 "B" "B" 1 Float64.ten),
          RepoCall.create (mkProduct 2 "B" "B" 2 Float64.twenty), RepoCall.delete 1]).ids.Nodup ∧
      (NewInMemoryRepo.run
        [RepoCall.create (mkProduct 1 "A" "A" 1 Float64.ten),
          RepoCall.create (mkProduct 1 "B" "B" 1 Float64.ten),
          RepoCall.create (mkProduct 2 "B" "B" 2 Float64.twenty),
          RepoCall.delete 1]).ids.Nodup) :=
  ⟨by decide, ids_stay_distinct { products := existing } _ _ (by decide)⟩

/-! ## In-memory `Update` -/

/-- C6: in-memory `Update` returns `errProductNotFound` exactly when no
stored product has the candidate's id, and then leaves the list unchanged;
otherwise it returns nil and the first stored record with that id is
replaced by the candidate carrying the stored record's `CreatedAt`, all
other records, their order and the length of the list being unchanged. -/
theorem update_replaces_first (r : InMemoryRepo) (p : Product) :
    ((r.Update p).1 = some GoError.errProductNotFound ↔ ∀ q ∈ r.products, q.Id ≠ p.Id) ∧
      ((∀ q ∈ r.products, q.Id ≠ p.Id) → (r.Update p).2 = r) ∧
      ((∃ q ∈ r.products, q.Id = p.Id) →
        ∃ pre cur post, r.products = pre ++ cur :: post ∧ (∀ q ∈ pre, q.Id ≠ p.Id) ∧
          cur.Id = p.Id ∧
          r.Update p
            = (none, { products := pre ++ { p with CreatedAt := cur.CreatedAt } :: post })) ∧
      (r.Update p).2.products.length = r.products.length := by
  rcases absent_or_present p.Id r.products with ha | hp
  · refine ⟨?_, ?_, ?_, ?_⟩
    · rw [update_of_absent r p ha]
      exact ⟨fun _ => ha, fun _ => rfl⟩
    · intro _
      rw [update_of_absent r p ha]
    · rintro ⟨q, hq, hid⟩
      exact absurd hid (ha q hq)
    · rw [update_of_absent r p ha]
  · obtain ⟨pre, cur, post, hps, hcur, hpre⟩ := exists_first_of_mem p.Id r.products hp
    have hu := update_of_first r p pre post cur hps hpre hcur
    refine ⟨?_, ?_, ?_, ?_⟩
    · rw [hu]
      simp only [reduceCtorEq, false_iff]
      intro hall
      obtain ⟨q, hq, hid⟩ := hp
      exact hall q hq hid
    · intro hall
      obtain ⟨q, hq, hid⟩ := hp
      exact absurd hid (hall q hq)
    · intro _
      exact ⟨pre, cur, post, hps, hpre, hcur, hu⟩
    · rw [hu, hps]
      simp

/-- C6, witness: updating id 2 on the two-product store with a candidate
that carries its own `CreatedAt`. -/
theorem update_replaces_first_witness :
    ∃ pre cur post, existing = pre ++ cur :: post ∧ (∀ q ∈ pre, q.Id ≠ 2) ∧ cur.Id = 2 ∧
      InMemoryRepo.Update { products := existing }
          { Id := 2, Brand := "N", Category := "M", Quantity := 5, Price := Float64.ten,
            CreatedAt := 99, UpdatedAt := 100 }
        = (none, { products := pre ++
            { Id := 2, Brand := "N", Category := "M", Quantity := 5, Price := Float64.ten,
              CreatedAt := cur.CreatedAt, UpdatedAt := 100 } :: post }) :=
  (update_replaces_first { products := existing }
    { Id := 2, Brand := "N", Category := "M", Quantity := 5, Price := Float64.ten,
      CreatedAt := 99, UpdatedAt := 100 }).2.2.1
    ⟨mkProduct 2 "B" "B" 2 Float64.twenty, by decide, rfl⟩

/-! ## Immutability of `CreatedAt` -/

theorem stampedAt_create (i : Int) (t : Time) (r : InMemoryRepo) (p : Product)
    (h : StampedAt i t r.products) : StampedAt i t (r.Create p).2.products := by
  rcases absent_or_present p.Id r.products with ha | hp
  · rw [create_of_absent r p ha]
    obtain ⟨⟨q0, hq0, hid0⟩, hall⟩ := h
    refine ⟨⟨q0, by simp [hq0], hid0⟩, ?_⟩
    intro q hq hid
    rcases List.mem_append.mp hq with hq | hq
    · exact hall q hq hid
    · rw [List.mem_singleton] at hq
      subst hq
      exact absurd (hid0.trans hid.symm) (ha q0 hq0)
  · rw [create_of_present r p hp]
    exact h

theorem stampedAt_update (i : Int) (t : Time) (r : InMemoryRepo) (p : Product)
    (h : StampedAt i t r.products) : StampedAt i t (r.Update p).2.products := by
  rcases absent_or_present p.Id r.products with ha | hp
  · rw [update_of_absent r p ha]
    exact h
  · obtain ⟨pre, cur, post, hps, hcur, hpre⟩ := exists_first_of_mem p.Id r.products hp
    rw [update_of_first r p pre post cur hps hpre hcur]
    obtain ⟨⟨q0, hq0, hid0⟩, hall⟩ := h
    rw [hps] at hq0 hall
    constructor
    · rcases List.mem_append.mp hq0 with hq | hq
      · exact ⟨q0, by simp [hq], hid0⟩
      · rcases List.mem_cons.mp hq with hq | hq
        · subst hq
          exact ⟨{ p with CreatedAt := q0.CreatedAt }, by simp, hcur.symm.trans hid0⟩
        · exact ⟨q0, by simp [hq], hid0⟩
    · intro q hq hid
      rcases List.mem_append.mp hq with hq | hq
      · exact hall q (by simp [hq]) hid
      · rcases List.mem_cons.mp hq with hq | hq
        · subst hq
          exact hall cur (by simp) (hcur.trans hid)
        · exact hall q (by simp [hq]) hid

theorem stampedAt_delete (i : Int) (t : Time) (r : InMemoryRepo) (id : Int)
    (hne : id ≠ i) (h : StampedAt i t r.products) :
    StampedAt i t (r.Delete id).2.products := by
  rcases absent_or_present id r.products with ha | hp
  · rw [delete_of_absent r id ha]
    exact h
  · obtain ⟨pre, cur, post, hps, hcur, hpre⟩ := exists_first_of_mem id r.products hp
    rw [delete_of_first r id pre post cur hps hpre hcur]
    obtain ⟨⟨q0, hq0, hid0⟩, hall⟩ := h
    rw [hps] at hq0 hall
    constructor
    · rcases List.mem_append.mp hq0 with hq | hq
      · exact ⟨q0, by simp [hq], hid0⟩
      · rcases List.mem_cons.mp hq with hq | hq
        · subst hq
          exact absurd (hcur.symm.trans hid0) hne
        · exact ⟨q0, by simp [hq], hid0⟩
    · intro q hq hid
      rcases List.mem_append.mp hq with hq | hq
      · exact hall q (by simp [hq]) hid
      · exact hall q (by simp [hq]) hid

theorem notify_inMemory_repo (s : ProductServiceImpl InMemoryRepo) :
    (ProductServiceImpl.notify inMemoryRepo s).repo = s.repo := by
  simp [ProductServiceImpl.notify, ProductServiceImpl.GetAll, inMemoryRepo,
    InMemoryRepo.GetAll]

theorem service_create_repo (s : ProductServiceImpl InMemoryRepo) (p : Product)
    (timeNow : Time) :
    (s.Create inMemoryRepo p timeNow).2.repo = s.repo ∨
      (s.Create inMemoryRepo p timeNow).2.repo
        = (s.repo.Create { p with CreatedAt := timeNow, UpdatedAt := timeNow }).2 := by
  unfold ProductServiceImpl.Create
  cases hv : validateProduct p with
  | some err => exact Or.inl rfl
  | none =>
    right
    simp only [inMemoryRepo]
    rcases hc : s.repo.Create { p with CreatedAt := timeNow, UpdatedAt := timeNow }
      with ⟨_ | err, r1⟩
    · simp [hc, ProductServiceImpl.notify, ProductServiceImpl.GetAll, InMemoryRepo.GetAll]
    · simp [hc]

theorem service_update_repo (s : ProductServiceImpl InMemoryRepo) (p : Product)
    (timeNow : Time) :
    (s.Update inMemoryRepo p timeNow).2.repo = s.repo ∨
      (s.Update inMemoryRepo p timeNow).2.repo
        = (s.repo.Update { p with UpdatedAt := timeNow }).2 := by
  unfold ProductServiceImpl.Update
  cases hv : validateProduct p with
  | some err => exact Or.inl rfl
  | none =>
    right
    simp only [inMemoryRepo]
    rcases hc : s.repo.Update { p with UpdatedAt := timeNow } with ⟨_ | err, r1⟩
    · simp [hc, ProductServiceImpl.notify, ProductServiceImpl.GetAll, InMemoryRepo.GetAll]
    · simp [hc]

theorem service_delete_result (s : ProductServiceImpl InMemoryRepo) (id : Int) :
    (s.Delete inMemoryRepo id).1 = (s.repo.Delete id).1 ∧
      (s.Delete inMemoryRepo id).2.repo = (s.repo.Delete id).2 := by
  unfold ProductServiceImpl.Delete
  simp only [inMemoryRepo]
  rcases hc : s.repo.Delete id with ⟨_ | err, r1⟩
  · simp [hc, ProductServiceImpl.notify, ProductServiceImpl.GetAll, InMemoryRepo.GetAll]
  · simp [hc]

theorem stampedAt_run (i : Int) (t : Time) (calls : List ServiceCall)
    (s : ProductServiceImpl InMemoryRepo) (h : StampedAt i t s.repo.products)
    (hd : ProductServiceImpl.deletes inMemoryRepo i s calls = false) :
    StampedAt i t (ProductServiceImpl.run inMemoryRepo s calls).repo.products := by
  induction calls generalizing s with
  | nil => exact h
  | cons c rest ih =>
    simp only [ProductServiceImpl.deletes, Bool.or_eq_false_iff] at hd
    obtain ⟨hhead, hrest⟩ := hd
    refine ih (s.call inMemoryRepo c).2 ?_ hrest
    cases c with
    | create p timeNow =>
      rcases service_create_repo s p timeNow with he | he
      · simp only [ProductServiceImpl.call, he]
        exact h
      · simp only [ProductServiceImpl.call, he]
        exact stampedAt_create i t s.repo _ h
    | update p timeNow =>
      rcases service_update_repo s p timeNow with he | he
      · simp only [ProductServiceImpl.call, he]
        exact h
      · simp only [ProductServiceImpl.call, he]
        exact stampedAt_update i t s.repo _ h
    | delete id =>
      obtain ⟨he1, he2⟩ := service_delete_result s id
      simp only [ProductServiceImpl.call, he2]
      by_cases hid : id = i
      · subst hid
        simp only [ProductServiceImpl.call, he1, decide_True, Bool.true_and] at hhead
        rcases absent_or_present id s.repo.products with ha | hp
        · rw [delete_of_absent s.repo id ha]
          exact h
        · obtain ⟨pre, cur, post, hps, hcur, hpre⟩ :=
            exists_first_of_mem id s.repo.products hp
          rw [delete_of_first s.repo id pre post cur hps hpre hcur] at hhead
          simp at hhead
      · exact stampedAt_delete i t s.repo id hid h

theorem getById_of_first (r : InMemoryRepo) (id : Int) (pre post : List Product)
    (cur : Product) (hps : r.products = pre ++ cur :: post)
    (hpre : ∀ q ∈ pre, q.Id ≠ id) (hcur : cur.Id = id) :
    r.GetById id = ((cur, none), r) := by
  unfold InMemoryRepo.GetById
  rw [hps, scanById_append_hit id pre post cur hpre hcur]

theorem getById_of_absent (r : InMemoryRepo) (id : Int)
    (h : ∀ q ∈ r.products, q.Id ≠ id) :
    r.GetById id = ((Product.zero, some GoError.errProductNotFound), r) := by
  unfold InMemoryRepo.GetById
  rw [(scanById_eq_none_iff id r.products).mpr h]

/-- C7: once `Service.Create` of a product succeeds at clock reading `t` on
an in-memory store, then after any later sequence of service
`Create`/`Update`/`Delete` calls in which no `Delete` of that id succeeds,
the id is still stored, `GetById` returns a record whose `CreatedAt` is `t`,
and every stored record with that id has `CreatedAt` equal to `t`. -/
theorem createdAt_immutable (s : ProductServiceImpl InMemoryRepo) (p : Product) (t : Time)
    (calls : List ServiceCall)
    (hc : (s.Create inMemoryRepo p t).1 = none)
    (hd : ProductServiceImpl.deletes inMemoryRepo p.Id (s.Create inMemoryRepo p t).2 calls
      = false) :
    (∃ q, ((ProductServiceImpl.run inMemoryRepo (s.Create inMemoryRepo p t).2
        calls).repo.GetById p.Id).1 = (q, none) ∧ q.CreatedAt = t) ∧
      ∀ q ∈ (ProductServiceImpl.run inMemoryRepo (s.Create inMemoryRepo p t).2
        calls).repo.products, q.Id = p.Id → q.CreatedAt = t := by
  have hstart : StampedAt p.Id t (s.Create inMemoryRepo p t).2.repo.products := by
    unfold ProductServiceImpl.Create at hc ⊢
    cases hv : validateProduct p with
    | some err => simp [hv] at hc
    | none =>
      simp only [hv, inMemoryRepo] at hc ⊢
      rcases absent_or_present p.Id s.repo.products with ha | hp
      · have hcr := create_of_absent s.repo
          { p with CreatedAt := t, UpdatedAt := t } ha
        simp only [hcr, ProductServiceImpl.notify, ProductServiceImpl.GetAll,
          InMemoryRepo.GetAll]
        refine ⟨⟨{ p with CreatedAt := t, UpdatedAt := t }, by simp, rfl⟩, ?_⟩
        intro q hq hid
        rcases List.mem_append.mp hq with hq | hq
        · exact absurd hid (ha q hq)
        · rw [List.mem_singleton] at hq
          rw [hq]
      · have hcr := create_of_present s.repo
          { p with CreatedAt := t, UpdatedAt := t } hp
        simp [hcr] at hc
  have hfinal := stampedAt_run p.Id t calls _ hstart hd
  refine ⟨?_, hfinal.2⟩
  obtain ⟨pre, cur, post, hps, hcur, hpre⟩ := exists_first_of_mem p.Id _ hfinal.1
  refine ⟨cur, ?_, hfinal.2 cur (by simp [hps]) hcur⟩
  rw [getById_of_first _ p.Id pre post cur hps hpre hcur]

/-- C7, witness: id 3 is created at clock reading 50 on the two-product
store and then updated twice, by candidates carrying other `CreatedAt`
values, among calls on other ids. -/
theorem createdAt_immutable_witness :
    (startService.Create inMemoryRepo (mkProduct 3 "C" "C" 3 Float64.twenty) 50).1 = none ∧
      ProductServiceImpl.deletes inMemoryRepo 3
        (startService.Create inMemoryRepo (mkProduct 3 "C" "C" 3 Float64.twenty) 50).2
        laterCalls = false ∧
      ∀ q ∈ (ProductServiceImpl.run inMemoryRepo
        (startService.Create inMemoryRepo (mkProduct 3 "C" "C" 3 Float64.twenty) 50).2
        laterCalls).repo.products, q.Id = 3 → q.CreatedAt = 50 :=
  ⟨by decide, by decide,
    (createdAt_immutable startService (mkProduct 3 "C" "C" 3 Float64.twenty) 50 laterCalls
      (by decide) (by decide)).2⟩

/-! ## In-memory `GetById` -/

theorem scanById_find (id : Int) (ps : List Product) :
    (scanById id ps).map (fun hit => hit.2) = ps.find? (fun q => decide (q.Id = id)) := by
  induction ps with
  | nil => rfl
  | cons c rest ih =>
    by_cases hc : c.Id = id
    · simp [scanById, hc]
    · simp only [scanById, hc, if_false, Option.map_map, List.find?_cons, decide_False]
      rw [← ih]
      rfl

/-- C8: in-memory `GetById` returns the first stored product with the given
id and a nil error when one exists, the zero `Product` and
`errProductNotFound` otherwise, and leaves the stored list as it was. -/
theorem getById_first_or_not_found (r : InMemoryRepo) (id : Int) :
    (r.GetById id).1 =
        (match r.products.find? (fun q => decide (q.Id = id)) with
          | some q => (q, none)
          | none => (Product.zero, some GoError.errProductNotFound)) ∧
      ((r.GetById id).1.2 = none ↔ ∃ q ∈ r.products, q.Id = id) ∧
      (r.GetById id).2 = r := by
  have hf := scanById_find id r.products
  rcases absent_or_present id r.products with ha | hp
  · have hn := (scanById_eq_none_iff id r.products).mpr ha
    rw [hn] at hf
    rw [getById_of_absent r id ha, ← hf]
    refine ⟨rfl, ⟨fun h => by simp at h, ?_⟩, rfl⟩
    rintro ⟨q, hq, hid⟩
    exact absurd hid (ha q hq)
  · obtain ⟨pre, cur, post, hps, hcur, hpre⟩ := exists_first_of_mem id r.products hp
    rw [hps, scanById_append_hit id pre post cur hpre hcur] at hf
    rw [getById_of_first r id pre post cur hps hpre hcur, hps, ← hf]
    refine ⟨rfl, ⟨fun _ => ?_, fun _ => rfl⟩, rfl⟩
    rw [← hps]
    exact hp

/-! ## In-memory `Delete` -/

/-- C9: in-memory `Delete` returns `errProductNotFound` exactly when no
stored product has the id, and then leaves the list unchanged; otherwise it
returns nil and the list becomes the old one without the first record of
that id, the others keeping their order, one record shorter. -/
theorem delete_removes_first (r : InMemoryRepo) (id : Int) :
    ((r.Delete id).1 = some GoError.errProductNotFound ↔ ∀ q ∈ r.products, q.Id ≠ id) ∧
      ((∀ q ∈ r.products, q.Id ≠ id) → (r.Delete id).2 = r) ∧
      ((∃ q ∈ r.products, q.Id = id) →
        ∃ pre cur post, r.products = pre ++ cur :: post ∧ (∀ q ∈ pre, q.Id ≠ id) ∧
          cur.Id = id ∧ r.Delete id = (none, { products := pre ++ post }) ∧
          (r.Delete id).2.products.length + 1 = r.products.length) := by
  rcases absent_or_present id r.products with ha | hp
  · rw [delete_of_absent r id ha]
    refine ⟨⟨fun _ => ha, fun _ => rfl⟩, fun _ => rfl, ?_⟩
    rintro ⟨q, hq, hid⟩
    exact absurd hid (ha q hq)
  · obtain ⟨pre, cur, post, hps, hcur, hpre⟩ := exists_first_of_mem id r.products hp
    have hdel := delete_of_first r id pre post cur hps hpre hcur
    refine ⟨?_, ?_, ?_⟩
    · rw [hdel]
      simp only [reduceCtorEq, false_iff]
      intro hall
      obtain ⟨q, hq, hid⟩ := hp
      exact hall q hq hid
    · intro hall
      obtain ⟨q, hq, hid⟩ := hp
      exact absurd hid (hall q hq)
    · intro _
      refine ⟨pre, cur, post, hps, hpre, hcur, hdel, ?_⟩
      rw [hdel, hps]
      simp only [List.length_append, List.length_cons]
      omega

/-- C9, witness: deleting id 1 from the two-product store. -/
theorem delete_removes_first_witness :
    ∃ pre cur post, existing = pre ++ cur :: post ∧ (∀ q ∈ pre, q.Id ≠ 1) ∧ cur.Id = 1 ∧
      InMemoryRepo.Delete { products := existing } 1 = (none, { products := pre ++ post }) ∧
      (InMemoryRepo.Delete { products := existing } 1).2.products.length + 1
        = existing.length :=
  (delete_removes_first { products := existing } 1).2.2
    ⟨mkProduct 1 "A" "A" 1 Float64.ten, by decide, rfl⟩

/-- C10: on an in-memory store with pairwise distinct ids, after a
successful `Delete(id)` the call `GetById(id)` fails with
`errProductNotFound`, a second `Delete(id)` fails with `errProductNotFound`,
and `GetAll()` succeeds with a list holding no product of that id. -/
theorem delete_is_permanent (r : InMemoryRepo) (id : Int) (hnd : r.ids.Nodup)
    (hdel : (r.Delete id).1 = none) :
    ((r.Delete id).2.GetById id).1 = (Product.zero, some GoError.errProductNotFound) ∧
      ((r.Delete id).2.Delete id).1 = some GoError.errProductNotFound ∧
      ((r.Delete id).2.GetAll).1.2 = none ∧
      ∀ q ∈ ((r.Delete id).2.GetAll).1.1, q.Id ≠ id := by
  rcases absent_or_present id r.products with ha | hp
  · rw [delete_of_absent r id ha] at hdel
    simp at hdel
  · obtain ⟨pre, cur, post, hps, hcur, hpre⟩ := exists_first_of_mem id r.products hp
    have hgone : ∀ q ∈ pre ++ post, q.Id ≠ id := by
      intro q hq
      rcases List.mem_append.mp hq with hq | hq
      · exact hpre q hq
      · intro hid
        simp only [InMemoryRepo.ids, hps, List.map_append, List.map_cons] at hnd
        have hcons := (List.nodup_append.mp hnd).2.1
        have hnot := (List.nodup_cons.mp hcons).1
        apply hnot
        rw [hcur, ← hid]
        exact List.mem_map_of_mem _ hq
    rw [delete_of_first r id pre post cur hps hpre hcur]
    refine ⟨?_, ?_, rfl, hgone⟩
    · rw [getById_of_absent _ id hgone]
    · rw [delete_of_absent _ id hgone]

/-- C10, witness: deleting id 1 from the two-product store. -/
theorem delete_is_permanent_witness :
    (InMemoryRepo.ids { products := existing }).Nodup ∧
      (InMemoryRepo.Delete { products := existing } 1).1 = none ∧
      ((InMemoryRepo.Delete { products := existing } 1).2.Delete 1).1
        = some GoError.errProductNotFound :=
  ⟨by decide, by decide,
    (delete_is_permanent { products := existing } 1 (by decide) (by decide)).2.1⟩

/-! ## In-memory `GetAll` -/

/-- C11: in-memory `GetAll` always returns a nil error and the stored
products in storage order, which is insertion order (after a `Create` the
result is the earlier result followed by the created product, or the earlier
result when the create is refused); it leaves the store as it was, so a
second `GetAll` returns the same sequence, and on the empty store the result
is empty with a nil error. -/
theorem getAll_reads_store (r : InMemoryRepo) (p : Product) :
    r.GetAll = ((r.products, none), r) ∧
      (r.GetAll.2.GetAll).1 = r.GetAll.1 ∧
      ((r.Create p).2.GetAll).1.1
        = (if (r.Create p).1 = none then r.GetAll.1.1 ++ [p] else r.GetAll.1.1) ∧
      NewInMemoryRepo.GetAll.1 = ([], none) := by
  refine ⟨rfl, rfl, ?_, rfl⟩
  rcases absent_or_present p.Id r.products with ha | hp
  · rw [create_of_absent r p ha]
    simp [InMemoryRepo.GetAll]
  · rw [create_of_present r p hp]
    simp [InMemoryRepo.GetAll]

/-! ## Service mutations on the in-memory store -/

theorem notify_inMemory (s : ProductServiceImpl InMemoryRepo) :
    ProductServiceImpl.notify inMemoryRepo s
      = { repo := s.repo,
          subscribers := s.subscribers.map (fun sub => sub.Update s.repo.products) } := by
  simp [ProductServiceImpl.notify, ProductServiceImpl.GetAll, inMemoryRepo,
    InMemoryRepo.GetAll]

theorem service_create_of_valid (s : ProductServiceImpl InMemoryRepo) (p : Product)
    (timeNow : Time) (hv : validateProduct p = none) :
    s.Create inMemoryRepo p timeNow
      = (match s.repo.Create { p with CreatedAt := timeNow, UpdatedAt := timeNow } with
          | (some err, repo1) => (some err, { s with repo := repo1 })
          | (none, repo1) =>
            (none, { repo := repo1,
                     subscribers := s.subscribers.map
                      (fun sub => sub.Update repo1.products) })) := by
  have hport : inMemoryRepo.Create = InMemoryRepo.Create := rfl
  unfold ProductServiceImpl.Create
  simp only [hv, hport]
  rcases hc : s.repo.Create { p with CreatedAt := timeNow, UpdatedAt := timeNow } with ⟨_ | err, r1⟩
  · simp only [hc, notify_inMemory]
  · simp only [hc]

theorem service_update_of_valid (s : ProductServiceImpl InMemoryRepo) (p : Product)
    (timeNow : Time) (hv : validateProduct p = none) :
    s.Update inMemoryRepo p timeNow
      = (match s.repo.Update { p with UpdatedAt := timeNow } with
          | (some err, repo1) => (some err, { s with repo := repo1 })
          | (none, repo1) =>
            (none, { repo := repo1,
                     subscribers := s.subscribers.map
                      (fun sub => sub.Update repo1.products) })) := by
  have hport : inMemoryRepo.Update = InMemoryRepo.Update := rfl
  unfold ProductServiceImpl.Update
  simp only [hv, hport]
  rcases hc : s.repo.Update { p with UpdatedAt := timeNow } with ⟨_ | err, r1⟩
  · simp only [hc, notify_inMemory]
  · simp only [hc]

theorem service_delete_eq (s : ProductServiceImpl InMemoryRepo) (id : Int) :
    s.Delete inMemoryRepo id
      = (match s.repo.Delete id with
          | (some err, repo1) => (some err, { s with repo := repo1 })
          | (none, repo1) =>
            (none, { repo := repo1,
                     subscribers := s.subscribers.map
                      (fun sub => sub.Update repo1.products) })) := by
  have hport : inMemoryRepo.Delete = InMemoryRepo.Delete := rfl
  unfold ProductServiceImpl.Delete
  simp only [hport]
  rcases hc : s.repo.Delete id with ⟨_ | err, r1⟩
  · simp only [hc, notify_inMemory]
  · simp only [hc]

/-- C12: on the in-memory store, for every state of the store and of the
registry, each of the following holds on its own premise. `Service.Create`
of a valid candidate whose id is stored returns `errDuplicateId`;
`Service.Update` of a valid candidate whose id is not stored returns
`errProductNotFound`; `Service.Delete` of an id that is not stored returns
`errProductNotFound`. In each case the service, its stored list and every
subscriber's received snapshots are exactly as before. -/
theorem service_storage_failure (s : ProductServiceImpl InMemoryRepo) (p : Product)
    (id : Int) (t : Time) :
    (validateProduct p = none → (∃ q ∈ s.repo.products, q.Id = p.Id) →
        s.Create inMemoryRepo p t = (some GoError.errDuplicateId, s)) ∧
      (validateProduct p = none → (∀ q ∈ s.repo.products, q.Id ≠ p.Id) →
        s.Update inMemoryRepo p t = (some GoError.errProductNotFound, s)) ∧
      ((∀ q ∈ s.repo.products, q.Id ≠ id) →
        s.Delete inMemoryRepo id = (some GoError.errProductNotFound, s)) := by
  refine ⟨?_, ?_, ?_⟩
  · intro hv hp
    rw [service_create_of_valid s p t hv,
      create_of_present s.repo { p with CreatedAt := t, UpdatedAt := t } hp]
  · intro hv ha
    rw [service_update_of_valid s p t hv,
      update_of_absent s.repo { p with UpdatedAt := t } ha]
  · intro hid
    rw [service_delete_eq s id, delete_of_absent s.repo id hid]

/-- C12, witness: create of the stored id 2 on the two-product store with
subscriber "B"; update of id 9 and delete of id 7 on the empty store with
subscribers "X" and "Y"; update of the missing id 9 on the two-product
store. -/
theorem service_storage_failure_witness :
    startService.Create inMemoryRepo (mkProduct 2 "Z" "Z" 5 Float64.ten) 40
        = (some GoError.errDuplicateId, startService) ∧
      emptyService.Update inMemoryRepo (mkProduct 9 "Z" "Z" 5 Float64.ten) 41
        = (some GoError.errProductNotFound, emptyService) ∧
      emptyService.Delete inMemoryRepo 7 = (some GoError.errProductNotFound, emptyService) ∧
      startService.Update inMemoryRepo (mkProduct 9 "Z" "Z" 5 Float64.ten) 41
        = (some GoError.errProductNotFound, startService) :=
  ⟨(service_storage_failure startService (mkProduct 2 "Z" "Z" 5 Float64.ten) 0 40).1
      (by decide) ⟨mkProduct 2 "B" "B" 2 Float64.twenty, by decide, rfl⟩,
    (service_storage_failure emptyService (mkProduct 9 "Z" "Z" 5 Float64.ten) 0 41).2.1
      (by decide) (by decide),
    (service_storage_failure emptyService (mkProduct 9 "Z" "Z" 5 Float64.ten) 7 41).2.2
      (by decide),
    (service_storage_failure startService (mkProduct 9 "Z" "Z" 5 Float64.ten) 0 41).2.1
      (by decide) (by decide)⟩

/-- C13: `Service.Create` of a valid candidate whose id is not stored, at
clock reading `t`, returns nil and the in-memory store becomes the old list
followed by the candidate with `CreatedAt` and `UpdatedAt` both set to `t`,
whatever timestamps the candidate carried, its other fields as given. -/
theorem service_create_stamps (s : ProductServiceImpl InMemoryRepo) (p : Product) (t : Time)
    (hv : validateProduct p = none) (ha : ∀ q ∈ s.repo.products, q.Id ≠ p.Id) :
    (s.Create inMemoryRepo p t).1 = none ∧
      (s.Create inMemoryRepo p t).2.repo.products
        = s.repo.products ++
          [{ Id := p.Id, Brand := p.Brand, Category := p.Category, Quantity := p.Quantity,
             Price := p.Price, CreatedAt := t, UpdatedAt := t }] := by
  rw [service_create_of_valid s p t hv,
    create_of_absent s.repo { p with CreatedAt := t, UpdatedAt := t } ha]
  exact ⟨rfl, rfl⟩

/-- C13, witness: creating id 3 at clock reading 50 with a candidate that
carries timestamps 7 and 8. -/
theorem service_create_stamps_witness :
    (startService.Create inMemoryRepo
        { Id := 3, Brand := "C", Category := "C", Quantity := 3, Price := Float64.twenty,
          CreatedAt := 7, UpdatedAt := 8 } 50).2.repo.products
      = existing ++
        [{ Id := 3, Brand := "C", Category := "C", Quantity := 3, Price := Float64.twenty,
           CreatedAt := 50, UpdatedAt := 50 }] :=
  (service_create_stamps startService
    { Id := 3, Brand := "C", Category := "C", Quantity := 3, Price := Float64.twenty,
      CreatedAt := 7, UpdatedAt := 8 } 50 (by decide) (by decide)).2

/-- C14: `Service.Update` of a valid candidate whose id is stored, at clock
reading `t`, returns nil and the first stored record with that id becomes
the candidate with `UpdatedAt` set to `t` and `CreatedAt` kept from the
stored record, whatever `CreatedAt` the candidate carried; every other
stored record is unchanged. -/
theorem service_update_stamps (s : ProductServiceImpl InMemoryRepo) (p : Product) (t : Time)
    (hv : validateProduct p = none) (hp : ∃ q ∈ s.repo.products, q.Id = p.Id) :
    (s.Update inMemoryRepo p t).1 = none ∧
      ∃ pre cur post, s.repo.products = pre ++ cur :: post ∧ (∀ q ∈ pre, q.Id ≠ p.Id) ∧
        cur.Id = p.Id ∧
        (s.Update inMemoryRepo p t).2.repo.products
          = pre ++
            { Id := p.Id, Brand := p.Brand, Category := p.Category, Quantity := p.Quantity,
              Price := p.Price, CreatedAt := cur.CreatedAt, UpdatedAt := t } :: post := by
  obtain ⟨pre, cur, post, hps, hcur, hpre⟩ := exists_first_of_mem p.Id s.repo.products hp
  have hu := update_of_first s.repo { p with UpdatedAt := t } pre post cur hps hpre hcur
  rw [service_update_of_valid s p t hv, hu]
  exact ⟨rfl, pre, cur, post, hps, hpre, hcur, rfl⟩

/-- C14, witness: updating id 2 at clock reading 60 with a candidate that
carries `CreatedAt` 99. -/
theorem service_update_stamps_witness :
    (startService.Update inMemoryRepo
        { Id := 2, Brand := "N", Category := "M", Quantity := 5, Price := Float64.ten,
          CreatedAt := 99, UpdatedAt := 0 } 60).1 = none :=
  (service_update_stamps startService
    { Id := 2, Brand := "N", Category := "M", Quantity := 5, Price := Float64.ten,
      CreatedAt := 99, UpdatedAt := 0 } 60 (by decide)
    ⟨mkProduct 2 "B" "B" 2 Float64.twenty, by decide, rfl⟩).1

/-! ## Notification after service mutations -/

theorem call_subscribers (s : ProductServiceImpl InMemoryRepo) (c : ServiceCall) :
    (s.call inMemoryRepo c).2.subscribers
      = (if (s.call inMemoryRepo c).1 = none then
          s.subscribers.map
            (fun sub => sub.Update (s.call inMemoryRepo c).2.repo.products)
         else s.subscribers) := by
  cases c with
  | create p timeNow =>
    simp only [ProductServiceImpl.call]
    cases hv : validateProduct p with
    | some err => simp [ProductServiceImpl.Create, hv]
    | none =>
      rw [service_create_of_valid s p timeNow hv]
      rcases hc : s.repo.Create { p with CreatedAt := timeNow, UpdatedAt := timeNow }
        with ⟨_ | err, r1⟩ <;> simp
  | update p timeNow =>
    simp only [ProductServiceImpl.call]
    cases hv : validateProduct p with
    | some err => simp [ProductServiceImpl.Update, hv]
    | none =>
      rw [service_update_of_valid s p timeNow hv]
      rcases hc : s.repo.Update { p with UpdatedAt := timeNow } with ⟨_ | err, r1⟩ <;> simp
  | delete id =>
    simp only [ProductServiceImpl.call]
    rw [service_delete_eq s id]
    rcases hc : s.repo.Delete id with ⟨_ | err, r1⟩ <;> simp

/-- C15: on the in-memory store, after a service `Create`, `Update` or
`Delete` call that returns nil every registered subscriber has been handed
one more snapshot, the result of `GetAll()` on the store after the mutation,
which is therefore its last received one; after a call that returns an error
the registry and what each subscriber has received are as before. -/
theorem notification_fidelity (s : ProductServiceImpl InMemoryRepo) (c : ServiceCall) :
    ((s.call inMemoryRepo c).1 = none →
        (s.call inMemoryRepo c).2.subscribers
          = s.subscribers.map
            (fun sub => sub.Update ((s.call inMemoryRepo c).2.repo.GetAll).1.1) ∧
        ∀ sub ∈ (s.call inMemoryRepo c).2.subscribers,
          sub.received.getLast? = some ((s.call inMemoryRepo c).2.repo.GetAll).1.1) ∧
      ((s.call inMemoryRepo c).1 ≠ none →
        (s.call inMemoryRepo c).2.subscribers = s.subscribers) := by
  have hsub := call_subscribers s c
  constructor
  · intro hok
    rw [if_pos hok] at hsub
    refine ⟨hsub, ?_⟩
    intro sub hmem
    rw [hsub] at hmem
    obtain ⟨old, _, hold⟩ := List.mem_map.mp hmem
    rw [← hold]
    simp [Subscriber.Update, InMemoryRepo.GetAll]
  · intro herr
    rw [if_neg herr] at hsub
    exact hsub

/-- C15, witness: a successful create of id 3 on the two-product store
with subscriber "B", and a refused create of the stored id 2. -/
theorem notification_fidelity_witness :
    (startService.call inMemoryRepo
        (ServiceCall.create (mkProduct 3 "C" "C" 3 Float64.twenty) 50)).1 = none ∧
      (startService.call inMemoryRepo
        (ServiceCall.create (mkProduct 3 "C" "C" 3 Float64.twenty) 50)).2.subscribers
        = [{ id := "B", received := [existing ++
            [{ Id := 3, Brand := "C", Category := "C", Quantity := 3,
               Price := Float64.twenty, CreatedAt := 50, UpdatedAt := 50 }]] }] ∧
      (startService.call inMemoryRepo
        (ServiceCall.create (mkProduct 2 "Z" "Z" 5 Float64.ten) 40)).1 ≠ none ∧
      (startService.call inMemoryRepo
        (ServiceCall.create (mkProduct 2 "Z" "Z" 5 Float64.ten) 40)).2.subscribers
        = startService.subscribers :=
  ⟨by decide,
    ((notification_fidelity startService
      (ServiceCall.create (mkProduct 3 "C" "C" 3 Float64.twenty) 50)).1 (by decide)).1,
    by decide,
    (notification_fidelity startService
      (ServiceCall.create (mkProduct 2 "Z" "Z" 5 Float64.ten) 40)).2 (by decide)⟩

theorem call_tally (s : ProductServiceImpl InMemoryRepo) (c : ServiceCall) (k : Nat) :
    (s.call inMemoryRepo c).2.subscribers.map (Subscriber.tally k)
      = s.subscribers.map
        (Subscriber.tally (k + (if (s.call inMemoryRepo c).1.isNone then 1 else 0))) := by
  rw [call_subscribers s c]
  cases hres : (s.call inMemoryRepo c).1 with
  | none =>
    simp only [if_true, Option.isNone_none, List.map_map]
    apply List.map_congr_left
    intro sub _
    simp only [Function.comp, Subscriber.tally, Subscriber.Update, Subscriber.Id,
      List.length_append, List.length_singleton]
    congr 1
    omega
  | some err => simp

theorem run_tally (calls : List ServiceCall) (s : ProductServiceImpl InMemoryRepo)
    (k : Nat) :
    (ProductServiceImpl.run inMemoryRepo s calls).subscribers.map (Subscriber.tally k)
      = s.subscribers.map
        (Subscriber.tally (ProductServiceImpl.successes inMemoryRepo s calls + k)) := by
  induction calls generalizing s k with
  | nil => simp [ProductServiceImpl.run, ProductServiceImpl.successes]
  | cons c rest ih =>
    simp only [ProductServiceImpl.run, ProductServiceImpl.successes]
    have hshift : ∀ a b d : Nat, a + b + d = d + a + b := by
      intro a b d
      omega
    rw [ih (s.call inMemoryRepo c).2 k, call_tally s c, hshift]

/-- C16: after any sequence of service `Create`/`Update`/`Delete` calls on
an in-memory store, with no subscribe or unsubscribe in between, the
registry holds the same identities in the same order and each subscriber
has received exactly N more snapshots than before, N being the number of
calls of the sequence that returned nil. -/
theorem deliveries_count_successes (s : ProductServiceImpl InMemoryRepo)
    (calls : List ServiceCall) :
    (ProductServiceImpl.run inMemoryRepo s calls).subscribers.map (Subscriber.tally 0)
        = s.subscribers.map
          (Subscriber.tally (ProductServiceImpl.successes inMemoryRepo s calls)) ∧
      ∀ sub ∈ (ProductServiceImpl.run inMemoryRepo s calls).subscribers,
        ∃ old ∈ s.subscribers, sub.Id = old.Id ∧
          sub.received.length
            = old.received.length + ProductServiceImpl.successes inMemoryRepo s calls := by
  have htally := run_tally calls s 0
  rw [Nat.add_zero] at htally
  refine ⟨htally, ?_⟩
  intro sub hsub
  have hmem : Subscriber.tally 0 sub
      ∈ (ProductServiceImpl.run inMemoryRepo s calls).subscribers.map (Subscriber.tally 0) :=
    List.mem_map_of_mem _ hsub
  rw [htally] at hmem
  obtain ⟨old, hold, heq⟩ := List.mem_map.mp hmem
  simp only [Subscriber.tally, Prod.mk.injEq, Nat.add_zero] at heq
  exact ⟨old, hold, heq.1.symm, heq.2.symm⟩

/-- C16, witness: of the five calls of `mixedCalls`, run on the two-product
store with subscribers "X" and "Y", three return nil and each subscriber
ends with three snapshots. -/
theorem deliveries_count_successes_witness :
    ProductServiceImpl.successes inMemoryRepo twoSubscribers mixedCalls = 3 ∧
      (ProductServiceImpl.run inMemoryRepo twoSubscribers mixedCalls).subscribers.map
          (Subscriber.tally 0)
        = [("X", 3), ("Y", 3)] :=
  ⟨by decide,
    (deliveries_count_successes twoSubscribers mixedCalls).1.trans (by decide)⟩

/-! ## Subscriber registry (`subscribe`, `unsubscribe`) -/

theorem scanSubscribers_eq_none_iff (id : String) (subs : List Subscriber) :
    ProductServiceImpl.scanSubscribers id subs = none ↔ ∀ e ∈ subs, e.Id ≠ id := by
  induction subs with
  | nil => simp [ProductServiceImpl.scanSubscribers]
  | cons c rest ih =>
    by_cases h : id = c.Id
    · simp [ProductServiceImpl.scanSubscribers, h]
    · have h2 : ¬ c.Id = id := fun hc => h hc.symm
      simp [ProductServiceImpl.scanSubscribers, h, h2, ih]

theorem scanSubscribers_append_hit (id : String) (pre post : List Subscriber)
    (cur : Subscriber) (hpre : ∀ e ∈ pre, e.Id ≠ id) (hcur : cur.Id = id) :
    ProductServiceImpl.scanSubscribers id (pre ++ cur :: post) = some pre.length := by
  induction pre with
  | nil => simp [ProductServiceImpl.scanSubscribers, hcur]
  | cons c rest ih =>
    have hc : ¬ id = c.Id := fun h => hpre c (List.mem_cons_self _ _) h.symm
    have hrest : ∀ e ∈ rest, e.Id ≠ id := fun e he => hpre e (List.mem_cons_of_mem _ he)
    simp [ProductServiceImpl.scanSubscribers, hc, ih hrest]

theorem exists_first_subscriber (id : String) (subs : List Subscriber)
    (h : ∃ e ∈ subs, e.Id = id) :
    ∃ pre cur post, subs = pre ++ cur :: post ∧ cur.Id = id ∧ ∀ e ∈ pre, e.Id ≠ id := by
  induction subs with
  | nil => simp at h
  | cons c rest ih =>
    by_cases hc : c.Id = id
    · exact ⟨[], c, rest, by simp, hc, by simp⟩
    · obtain ⟨e, he, hid⟩ := h
      rcases List.mem_cons.mp he with rfl | he
      · exact absurd hid hc
      · obtain ⟨pre, cur, post, hsubs, hcur, hpre⟩ := ih ⟨e, he, hid⟩
        refine ⟨c :: pre, cur, post, by simp [hsubs], hcur, ?_⟩
        intro x hx
        rcases List.mem_cons.mp hx with rfl | hx
        · exact hc
        · exact hpre x hx

theorem splice_length_append (pre post : List Subscriber) (cur : Subscriber) :
    (pre ++ cur :: post).take pre.length ++ (pre ++ cur :: post).drop (pre.length + 1)
      = pre ++ post := by
  induction pre with
  | nil => simp
  | cons c rest ih => simp

theorem unsubscribe_of_first {σ : Type} (srv : ProductServiceImpl σ) (sub : Subscriber)
    (hne : sub.Id ≠ "") (pre post : List Subscriber) (cur : Subscriber)
    (hsubs : srv.subscribers = pre ++ cur :: post)
    (hpre : ∀ e ∈ pre, e.Id ≠ sub.Id) (hcur : cur.Id = sub.Id) :
    srv.unsubscribe sub = (none, { srv with subscribers := pre ++ post }) := by
  unfold ProductServiceImpl.unsubscribe
  simp only [hne, if_false]
  rw [hsubs, scanSubscribers_append_hit sub.Id pre post cur hpre hcur]
  simp only [splice_length_append]

theorem unsubscribe_of_absent {σ : Type} (srv : ProductServiceImpl σ) (sub : Subscriber)
    (hne : sub.Id ≠ "") (habs : ∀ e ∈ srv.subscribers, e.Id ≠ sub.Id) :
    srv.unsubscribe sub
      = (some (GoError.errorf ("subscriber with " ++ sub.Id ++ " id not found")), srv) := by
  unfold ProductServiceImpl.unsubscribe
  simp only [hne, if_false]
  rw [(scanSubscribers_eq_none_iff sub.Id srv.subscribers).mpr habs]

/-- C17: `subscribe` returns `errEmptyId` exactly when the subscriber's
identity is empty, and then leaves the service as it was; otherwise it
returns nil and the registry becomes the old registry followed by the
subscriber as given. In both cases the storage state is untouched and the
entries already registered keep what they had received. -/
theorem subscribe_appends {σ : Type} (srv : ProductServiceImpl σ) (sub : Subscriber) :
    ((srv.subscribe sub).1 = some GoError.errEmptyId ↔ sub.Id = "") ∧
      (sub.Id = "" → srv.subscribe sub = (some GoError.errEmptyId, srv)) ∧
      (sub.Id ≠ "" →
        (srv.subscribe sub).1 = none ∧
          (srv.subscribe sub).2.subscribers = srv.subscribers ++ [sub]) ∧
      (srv.subscribe sub).2.repo = srv.repo := by
  unfold ProductServiceImpl.subscribe
  by_cases h : sub.Id = ""
  · simp [h]
  · simp [h]

/-- C17, witness: subscribing "Z" to the registry "X", "Y", and subscribing
an empty identity. -/
theorem subscribe_appends_witness :
    (twoSubscribers.subscribe (freshSubscriber "Z")).2.subscribers
        = [freshSubscriber "X", freshSubscriber "Y", freshSubscriber "Z"] ∧
      (twoSubscribers.subscribe (freshSubscriber "")).1 = some GoError.errEmptyId :=
  ⟨((subscribe_appends twoSubscribers (freshSubscriber "Z")).2.2.1 (by decide)).2,
    congrArg Prod.fst
      ((subscribe_appends twoSubscribers (freshSubscriber "")).2.1 (by decide))⟩

/-- C18: `unsubscribe` returns `errEmptyId` when the subscriber's identity
is empty, and the error "subscriber with <identity> id not found" when the
identity is non-empty and no registry entry has it; in both cases the
service, its registry and what each entry has received are exactly as
before. -/
theorem unsubscribe_failures {σ : Type} (srv : ProductServiceImpl σ) (sub : Subscriber) :
    (sub.Id = "" → srv.unsubscribe sub = (some GoError.errEmptyId, srv)) ∧
      (sub.Id ≠ "" → (∀ e ∈ srv.subscribers, e.Id ≠ sub.Id) →
        srv.unsubscribe sub
          = (some (GoError.errorf ("subscriber with " ++ sub.Id ++ " id not found")),
              srv)) := by
  constructor
  · intro h
    simp [ProductServiceImpl.unsubscribe, h]
  · intro hne habs
    exact unsubscribe_of_absent srv sub hne habs

/-- C18, witness: unsubscribing the unknown identity "D" and the empty
identity from the registry "X", "Y". -/
theorem unsubscribe_failures_witness :
    twoSubscribers.unsubscribe (freshSubscriber "")
        = (some GoError.errEmptyId, twoSubscribers) ∧
      twoSubscribers.unsubscribe (freshSubscriber "D")
        = (some (GoError.errorf "subscriber with D id not found"), twoSubscribers) :=
  ⟨(unsubscribe_failures twoSubscribers (freshSubscriber "")).1 (by decide),
    (unsubscribe_failures twoSubscribers (freshSubscriber "D")).2 (by decide) (by decide)⟩

/-- C19: `unsubscribe` of a non-empty identity that some registry entry has
returns nil and the registry becomes the old one without its first entry of
that identity; the entries before it and after it, later entries of the same
identity included, stay in their order. -/
theorem unsubscribe_removes_first {σ : Type} (srv : ProductServiceImpl σ) (sub : Subscriber)
    (hne : sub.Id ≠ "") (h : ∃ e ∈ srv.subscribers, e.Id = sub.Id) :
    ∃ pre cur post, srv.subscribers = pre ++ cur :: post ∧ (∀ e ∈ pre, e.Id ≠ sub.Id) ∧
      cur.Id = sub.Id ∧
      srv.unsubscribe sub = (none, { srv with subscribers := pre ++ post }) := by
  obtain ⟨pre, cur, post, hsubs, hcur, hpre⟩ :=
    exists_first_subscriber sub.Id srv.subscribers h
  exact ⟨pre, cur, post, hsubs, hpre, hcur,
    unsubscribe_of_first srv sub hne pre post cur hsubs hpre hcur⟩

/-- C19, witness: unsubscribing identity "X" from a registry holding two
entries of that identity. -/
theorem unsubscribe_removes_first_witness :
    ∃ pre cur post, duplicateRegistry.subscribers = pre ++ cur :: post ∧
      (∀ e ∈ pre, e.Id ≠ "X") ∧ cur.Id = "X" ∧
      duplicateRegistry.unsubscribe (freshSubscriber "X")
        = (none, { duplicateRegistry with subscribers := pre ++ post }) :=
  unsubscribe_removes_first duplicateRegistry (freshSubscriber "X") (by decide)
    ⟨freshSubscriber "X", by decide, rfl⟩

/-- C20, counterexample: on the registry "X", "Y", subscribing a subscriber
of identity "X" and then unsubscribing it succeeds twice and leaves the
registry "Y", "X", which is not the registry before the subscribe. -/
theorem subscribe_unsubscribe_reorders :
    (twoSubscribers.subscribe (freshSubscriber "X")).1 = none ∧
      ((twoSubscribers.subscribe (freshSubscriber "X")).2.unsubscribe
        (freshSubscriber "X")).1 = none ∧
      ((twoSubscribers.subscribe (freshSubscriber "X")).2.unsubscribe
        (freshSubscriber "X")).2.subscribers = [freshSubscriber "Y", freshSubscriber "X"] ∧
      ((twoSubscribers.subscribe (freshSubscriber "X")).2.unsubscribe
        (freshSubscriber "X")).2.subscribers ≠ twoSubscribers.subscribers := by
  decide

/-- C20 (as amended): for a subscriber of non-empty identity, `subscribe`
followed by `unsubscribe` both return nil, and when no entry of the registry
has the subscriber's identity they leave the service, registry included,
exactly as it was before the subscribe. -/
theorem subscribe_unsubscribe_roundtrip {σ : Type} (srv : ProductServiceImpl σ)
    (sub : Subscriber) (hne : sub.Id ≠ "") :
    (srv.subscribe sub).1 = none ∧
      ((srv.subscribe sub).2.unsubscribe sub).1 = none ∧
      ((∀ e ∈ srv.subscribers, e.Id ≠ sub.Id) →
        (srv.subscribe sub).2.unsubscribe sub = (none, srv)) := by
  have hs : srv.subscribe sub = (none, { srv with subscribers := srv.subscribers ++ [sub] }) := by
    simp [ProductServiceImpl.subscribe, hne]
  rw [hs]
  refine ⟨rfl, ?_, ?_⟩
  · obtain ⟨pre, cur, post, hsubs, hcur, hpre⟩ :=
      exists_first_subscriber sub.Id (srv.subscribers ++ [sub]) ⟨sub, by simp, rfl⟩
    rw [unsubscribe_of_first { srv with subscribers := srv.subscribers ++ [sub] } sub hne
      pre post cur hsubs hpre hcur]
  · intro hfresh
    rw [unsubscribe_of_first { srv with subscribers := srv.subscribers ++ [sub] } sub hne
      srv.subscribers [] sub rfl hfresh rfl]
    simp

/-- C20, witness: subscribing and unsubscribing "Z" on the registry "X",
"Y". -/
theorem subscribe_unsubscribe_roundtrip_witness :
    ((twoSubscribers.subscribe (freshSubscriber "Z")).2.unsubscribe (freshSubscriber "Z"))
      = (none, twoSubscribers) :=
  (subscribe_unsubscribe_roundtrip twoSubscribers (freshSubscriber "Z") (by decide)).2.2
    (by decide)

/-! ## Error propagation through the service -/

/-- C21, counterexample: `Service.Create` of the failing candidate returns
the validator's error wrapped under the text "create product: ", which is
not the error value the validator produced. -/
theorem service_wraps_validation_error :
    (startService.Create inMemoryRepo invalidCandidate 7).1
        = some (GoError.wrapf "create product: "
            (GoError.validationError
              ["Id should not be less than 0", "Category should not be empty",
                "Quantity should not be less than 0"])) ∧
      (startService.Create inMemoryRepo invalidCandidate 7).1
        ≠ validateProduct invalidCandidate := by
  decide

/-- C21 (as amended): over any storage port, `Service.Create`, `Update`,
`Delete` and `GetById` return the port's error as the port produced it; a
validation failure is returned by `Create` and `Update` wrapped under the
text "create product: ", respectively "update product: ", and `errors.As`
recovers from the wrapper what it recovers from the validator's error. -/
theorem service_error_propagation {σ : Type} (port : Repo σ) (s : ProductServiceImpl σ)
    (p : Product) (id : Int) (t : Time) :
    (∀ e, validateProduct p = some e →
        (s.Create port p t).1 = some (GoError.wrapf "create product: " e) ∧
        (s.Update port p t).1 = some (GoError.wrapf "update product: " e) ∧
        (GoError.wrapf "create product: " e).asValidationError = e.asValidationError ∧
        (GoError.wrapf "update product: " e).asValidationError = e.asValidationError) ∧
      (validateProduct p = none →
        (s.Create port p t).1
            = (port.Create s.repo { p with CreatedAt := t, UpdatedAt := t }).1 ∧
          (s.Update port p t).1 = (port.Update s.repo { p with UpdatedAt := t }).1) ∧
      (s.Delete port id).1 = (port.Delete s.repo id).1 ∧
      (s.GetById port id).1 = (port.GetById s.repo id).1 := by
  refine ⟨?_, ?_, ?_, rfl⟩
  · intro e he
    refine ⟨?_, ?_, rfl, rfl⟩
    · simp [ProductServiceImpl.Create, he]
    · simp [ProductServiceImpl.Update, he]
  · intro hv
    constructor
    · unfold ProductServiceImpl.Create
      simp only [hv]
      rcases hc : port.Create s.repo { p with CreatedAt := t, UpdatedAt := t }
        with ⟨_ | err, r1⟩ <;> simp only [hc]
    · unfold ProductServiceImpl.Update
      simp only [hv]
      rcases hc : port.Update s.repo { p with UpdatedAt := t } with ⟨_ | err, r1⟩
        <;> simp only [hc]
  · unfold ProductServiceImpl.Delete
    rcases hc : port.Delete s.repo id with ⟨_ | err, r1⟩ <;> simp only [hc]

/-- C21, witness: on the two-product store, creating the stored id 2 returns
the backend's own `errDuplicateId`. -/
theorem service_error_propagation_witness :
    (startService.Create inMemoryRepo (mkProduct 2 "Z" "Z" 5 Float64.ten) 40).1
      = some GoError.errDuplicateId :=
  (((service_error_propagation inMemoryRepo startService (mkProduct 2 "Z" "Z" 5 Float64.ten)
    0 40).2.1 (by decide)).1).trans (by decide)

/-! ## Service reads -/

/-- C23: over any storage port, `Service.GetById` and `Service.GetAll` return
the value and error of the port's `GetById` and `GetAll`, hand the port's
state on and leave the registry and what each subscriber has received as
they were; on the in-memory store the whole service is as before. -/
theorem service_reads_pass_through {σ : Type} (port : Repo σ) (s : ProductServiceImpl σ)
    (m : ProductServiceImpl InMemoryRepo) (id : Int) :
    (s.GetById port id).1 = (port.GetById s.repo id).1 ∧
      (s.GetById port id).2.repo = (port.GetById s.repo id).2 ∧
      (s.GetById port id).2.subscribers = s.subscribers ∧
      (s.GetAll port).1 = (port.GetAll s.repo).1 ∧
      (s.GetAll port).2.repo = (port.GetAll s.repo).2 ∧
      (s.GetAll port).2.subscribers = s.subscribers ∧
      m.GetById inMemoryRepo id = ((m.repo.GetById id).1, m) ∧
      m.GetAll inMemoryRepo = ((m.repo.GetAll).1, m) := by
  refine ⟨rfl, rfl, rfl, rfl, rfl, rfl, ?_, rfl⟩
  have hsame : (m.repo.GetById id).2 = m.repo := by
    unfold InMemoryRepo.GetById
    cases scanById id m.repo.products <;> rfl
  simp only [ProductServiceImpl.GetById, inMemoryRepo, hsame]

/-! ## Classification of errors by `handleError` -/

theorem is_sentinel_not_syntax (target err : GoError)
    (htarget : target.asJsonSyntaxError = false) (h : err.is target = true) :
    err.asJsonSyntaxError = false := by
  induction err with
  | wrapf text inner ih =>
    simp only [GoError.is, Bool.or_eq_true, decide_eq_true_eq] at h
    rcases h with h | h
    · rw [h]
      exact htarget
    · simpa [GoError.asJsonSyntaxError] using ih h
  | _ =>
    simp only [GoError.is, decide_eq_true_eq] at h
    rw [h]
    exact htarget

theorem is_notFound_not_duplicate (err : GoError)
    (h : err.is GoError.errProductNotFound = true) :
    err.is GoError.errDuplicateId = false := by
  induction err with
  | wrapf text inner ih =>
    simp only [GoError.is, Bool.or_eq_true, decide_eq_true_eq, reduceCtorEq, false_or] at h
    simp [GoError.is, ih h]
  | _ => simp_all [GoError.is]

theorem validation_not_other (err : GoError) (failures : List String)
    (h : err.asValidationError = some failures) :
    err.asJsonSyntaxError = false ∧ err.is GoError.errDuplicateId = false ∧
      err.is GoError.errProductNotFound = false := by
  induction err with
  | wrapf text inner ih =>
    simp only [GoError.asValidationError] at h
    simpa [GoError.asJsonSyntaxError, GoError.is] using ih h
  | validationError fs => simp [GoError.asJsonSyntaxError, GoError.is]
  | _ => simp [GoError.asValidationError] at h

/-- C25: `handleError` answers an error that is or wraps `errDuplicateId`
with 409 and "product exists", one that is or wraps `errProductNotFound`
with 404 and "product not found", one from which a validation error is
recoverable, such as the wrapped error of `Service.Create` and `Update`,
with 400 and its failures in order (no body when the list is empty), a JSON
syntax error with 400 and "invalid json", and any other error with 500 and
no body. -/
theorem handleError_classifies (err : GoError) :
    (err.is GoError.errDuplicateId = true →
        handleError err = { statusCode := 409, errors := some ["product exists"] }) ∧
      (err.is GoError.errProductNotFound = true →
        handleError err = { statusCode := 404, errors := some ["product not found"] }) ∧
      (∀ failures, err.asValidationError = some failures →
        handleError err
          = { statusCode := 400, errors := if failures = [] then none else some failures }) ∧
      (∀ failures text, failures ≠ [] →
        handleError (GoError.wrapf text (GoError.validationError failures))
          = { statusCode := 400, errors := some failures }) ∧
      (err.asJsonSyntaxError = true →
        handleError err = { statusCode := 400, errors := some ["invalid json"] }) ∧
      (err.asJsonSyntaxError = false → err.is GoError.errDuplicateId = false →
        err.is GoError.errProductNotFound = false → err.asValidationError = none →
        handleError err = { statusCode := 500, errors := none }) := by
  refine ⟨?_, ?_, ?_, ?_, ?_, ?_⟩
  · intro h
    have hs := is_sentinel_not_syntax GoError.errDuplicateId err rfl h
    simp [handleError, hs, h, writeError, StatusConflict]
  · intro h
    have hs := is_sentinel_not_syntax GoError.errProductNotFound err rfl h
    have hd := is_notFound_not_duplicate err h
    simp [handleError, hs, hd, h, writeError, StatusNotFound]
  · intro failures h
    obtain ⟨hs, hd, hn⟩ := validation_not_other err failures h
    by_cases hf : failures = []
    · simp [handleError, hs, hd, hn, h, writeError, StatusBadRequest, hf]
    · simp [handleError, hs, hd, hn, h, writeError, StatusBadRequest, hf]
  · intro failures text hf
    simp [handleError, GoError.asJsonSyntaxError, GoError.is, GoError.asValidationError,
      writeError, StatusBadRequest, hf]
  · intro h
    simp [handleError, h, writeError, StatusBadRequest]
  · intro hs hd hn hv
    simp [handleError, hs, hd, hn, hv, StatusInternalServerError]

/-- C25, witness: the responses to the errors `Service.Create` returns for
the stored id 2 and for the failing candidate, to `errProductNotFound`, to
a JSON syntax error and to `errEmptyId`. -/
theorem handleError_classifies_witness :
    handleError GoError.errDuplicateId
        = { statusCode := 409, errors := some ["product exists"] } ∧
      handleError GoError.errProductNotFound
        = { statusCode := 404, errors := some ["product not found"] } ∧
      handleError (GoError.wrapf "create product: "
          (GoError.validationError ["Id should not be less than 0"]))
        = { statusCode := 400, errors := some ["Id should not be less than 0"] } ∧
      handleError (GoError.jsonSyntaxError "unexpected end of JSON input" 4)
        = { statusCode := 400, errors := some ["invalid json"] } ∧
      handleError GoError.errEmptyId = { statusCode := 500, errors := none } :=
  ⟨(handleError_classifies GoError.errDuplicateId).1 (by decide),
    (handleError_classifies GoError.errProductNotFound).2.1 (by decide),
    (handleError_classifies GoError.errEmptyId).2.2.2.1 _ _ (by decide),
    (handleError_classifies (GoError.jsonSyntaxError "unexpected end of JSON input" 4)).2.2.2.2.1
      (by decide),
    (handleError_classifies GoError.errEmptyId).2.2.2.2.2 (by decide) (by decide) (by decide)
      (by decide)⟩

/-! ## Order of the timestamps -/

theorem timeOrdered_create (later : List Time) (r : InMemoryRepo) (p : Product)
    (h : TimeOrdered later r.products)
    (hp : p.CreatedAt ≤ p.UpdatedAt ∧ ∀ t ∈ later, p.CreatedAt ≤ t) :
    TimeOrdered later (r.Create p).2.products := by
  rcases absent_or_present p.Id r.products with ha | hpres
  · rw [create_of_absent r p ha]
    intro q hq
    rcases List.mem_append.mp hq with hq | hq
    · exact h q hq
    · rw [List.mem_singleton] at hq
      rw [hq]
      exact hp
  · rw [create_of_present r p hpres]
    exact h

theorem timeOrdered_update (later : List Time) (r : InMemoryRepo) (p : Product)
    (h : TimeOrdered later r.products)
    (hp : ∀ q ∈ r.products, q.CreatedAt ≤ p.UpdatedAt) :
    TimeOrdered later (r.Update p).2.products := by
  rcases absent_or_present p.Id r.products with ha | hpres
  · rw [update_of_absent r p ha]
    exact h
  · obtain ⟨pre, cur, post, hps, hcur, hpre⟩ := exists_first_of_mem p.Id r.products hpres
    rw [update_of_first r p pre post cur hps hpre hcur]
    have hmem : cur ∈ r.products := by simp [hps]
    intro q hq
    rcases List.mem_append.mp hq with hq | hq
    · exact h q (by simp [hps, hq])
    · rcases List.mem_cons.mp hq with hq | hq
      · rw [hq]
        exact ⟨hp cur hmem, (h cur hmem).2⟩
      · exact h q (by simp [hps, hq])

theorem timeOrdered_delete (later : List Time) (r : InMemoryRepo) (id : Int)
    (h : TimeOrdered later r.products) : TimeOrdered later (r.Delete id).2.products := by
  rcases absent_or_present id r.products with ha | hpres
  · rw [delete_of_absent r id ha]
    exact h
  · obtain ⟨pre, cur, post, hps, hcur, hpre⟩ := exists_first_of_mem id r.products hpres
    rw [delete_of_first r id pre post cur hps hpre hcur]
    intro q hq
    rcases List.mem_append.mp hq with hq | hq
    · exact h q (by simp [hps, hq])
    · exact h q (by simp [hps, hq])

theorem timeOrdered_tail (t : Time) (later : List Time) (ps : List Product)
    (h : TimeOrdered (t :: later) ps) : TimeOrdered later ps :=
  fun q hq => ⟨(h q hq).1, fun t1 ht1 => (h q hq).2 t1 (List.mem_cons_of_mem _ ht1)⟩

theorem service_create_repo_of_valid (s : ProductServiceImpl InMemoryRepo) (p : Product)
    (timeNow : Time) (hv : validateProduct p = none) :
    (s.Create inMemoryRepo p timeNow).2.repo
      = (s.repo.Create { p with CreatedAt := timeNow, UpdatedAt := timeNow }).2 := by
  rw [service_create_of_valid s p timeNow hv]
  rcases hc : s.repo.Create { p with CreatedAt := timeNow, UpdatedAt := timeNow }
    with ⟨_ | err, r1⟩ <;> rfl

theorem service_update_repo_of_valid (s : ProductServiceImpl InMemoryRepo) (p : Product)
    (timeNow : Time) (hv : validateProduct p = none) :
    (s.Update inMemoryRepo p timeNow).2.repo
      = (s.repo.Update { p with UpdatedAt := timeNow }).2 := by
  rw [service_update_of_valid s p timeNow hv]
  rcases hc : s.repo.Update { p with UpdatedAt := timeNow } with ⟨_ | err, r1⟩ <;> rfl

theorem timeOrdered_run (calls : List ServiceCall) (s : ProductServiceImpl InMemoryRepo)
    (hclock : (clockReadings calls).Pairwise (fun a b => a ≤ b))
    (h : TimeOrdered (clockReadings calls) s.repo.products) :
    TimeOrdered [] (ProductServiceImpl.run inMemoryRepo s calls).repo.products := by
  induction calls generalizing s with
  | nil => exact h
  | cons c rest ih =>
    cases c with
    | create p timeNow =>
      cases hv : validateProduct p with
      | some err =>
        have hsame : (s.call inMemoryRepo (ServiceCall.create p timeNow)).2 = s := by
          simp [ProductServiceImpl.call, ProductServiceImpl.Create, hv]
        simp only [clockReadings, hv, reduceCtorEq, if_false] at hclock h
        simp only [ProductServiceImpl.run, hsame]
        exact ih s hclock h
      | none =>
        simp only [clockReadings, hv, if_true, List.pairwise_cons] at hclock h
        refine ih _ hclock.2 ?_
        simp only [ProductServiceImpl.call, service_create_repo_of_valid s p timeNow hv]
        exact timeOrdered_create _ s.repo _ (timeOrdered_tail _ _ _ h)
          ⟨le_refl _, hclock.1⟩
    | update p timeNow =>
      cases hv : validateProduct p with
      | some err =>
        have hsame : (s.call inMemoryRepo (ServiceCall.update p timeNow)).2 = s := by
          simp [ProductServiceImpl.call, ProductServiceImpl.Update, hv]
        simp only [clockReadings, hv, reduceCtorEq, if_false] at hclock h
        simp only [ProductServiceImpl.run, hsame]
        exact ih s hclock h
      | none =>
        simp only [clockReadings, hv, if_true, List.pairwise_cons] at hclock h
        refine ih _ hclock.2 ?_
        simp only [ProductServiceImpl.call, service_update_repo_of_valid s p timeNow hv]
        exact timeOrdered_update _ s.repo _ (timeOrdered_tail _ _ _ h)
          (fun q hq => (h q hq).2 timeNow (List.mem_cons_self _ _))
    | delete id =>
      simp only [clockReadings] at hclock h
      refine ih _ hclock ?_
      simp only [ProductServiceImpl.call, (service_delete_result s id).2]
      exact timeOrdered_delete _ s.repo id h

/-- C22: run any sequence of service `Create`/`Update`/`Delete` calls from
an empty in-memory store, whatever the registry; if the clock readings the
calls take are non-decreasing, every product stored at the end has
`UpdatedAt` at or after `CreatedAt`. -/
theorem updatedAt_not_before_createdAt (calls : List ServiceCall) (subs : List Subscriber)
    (hclock : (clockReadings calls).Pairwise (fun a b => a ≤ b)) :
    ∀ q ∈ (ProductServiceImpl.run inMemoryRepo
        { repo := NewInMemoryRepo, subscribers := subs } calls).repo.products,
      q.CreatedAt ≤ q.UpdatedAt := by
  intro q hq
  have hstart : TimeOrdered (clockReadings calls)
      ({ repo := NewInMemoryRepo, subscribers := subs } :
        ProductServiceImpl InMemoryRepo).repo.products := by
    intro x hx
    simp [NewInMemoryRepo] at hx
  exact (timeOrdered_run calls _ hclock hstart q hq).1

/-- C22, witness: from the empty store, a create of id 3 at 50, an update of
id 3 at 60 and a create of id 4 at 70 leave ids 3 and 4 stored with
`CreatedAt` 50, 70 and `UpdatedAt` 60, 70. -/
theorem updatedAt_not_before_createdAt_witness :
    (clockReadings
        [ServiceCall.create (mkProduct 3 "C" "C" 3 Float64.twenty) 50,
          ServiceCall.update (mkProduct 3 "D" "D" 4 Float64.ten) 60,
          ServiceCall.create (mkProduct 4 "E" "E" 1 Float64.ten) 70]).Pairwise
        (fun a b => a ≤ b) ∧
      ((ProductServiceImpl.run inMemoryRepo { repo := NewInMemoryRepo, subscribers := [] }
        [ServiceCall.create (mkProduct 3 "C" "C" 3 Float64.twenty) 50,
          ServiceCall.update (mkProduct 3 "D" "D" 4 Float64.ten) 60,
          ServiceCall.create (mkProduct 4 "E" "E" 1 Float64.ten) 70]).repo.products.map
          (fun q => (q.CreatedAt, q.UpdatedAt)) = [(50, 60), (70, 70)] ∧
      ∀ q ∈ (ProductServiceImpl.run inMemoryRepo { repo := NewInMemoryRepo, subscribers := [] }
        [ServiceCall.create (mkProduct 3 "C" "C" 3 Float64.twenty) 50,
          ServiceCall.update (mkProduct 3 "D" "D" 4 Float64.ten) 60,
          ServiceCall.create (mkProduct 4 "E" "E" 1 Float64.ten) 70]).repo.products,
        q.CreatedAt ≤ q.UpdatedAt) :=
  ⟨by decide, by decide, updatedAt_not_before_createdAt _ [] (by decide)⟩

/-! ## End-to-end scenario -/

/-- C24: on the store holding (1,A,A,1,10) and (2,B,B,2,20) with observer X
subscribed, `Create` of (3,C,C,3,30) at any clock reading returns nil, the
store then holds three products and X has received exactly one snapshot,
those three; `Delete(1)` then returns nil, the store holds exactly the
products with ids 2 and 3, in this order, and X has received a second
snapshot, those two. -/
theorem end_to_end_scenario (t : Time) :
    scenarioStart.subscribers = [freshSubscriber "X"] ∧
      (scenarioStart.Create inMemoryRepo (mkProduct 3 "C" "C" 3 Float64.thirty) t).1 = none ∧
      (scenarioStart.Create inMemoryRepo (mkProduct 3 "C" "C" 3 Float64.thirty)
          t).2.repo.products
        = [mkProduct 1 "A" "A" 1 Float64.ten, mkProduct 2 "B" "B" 2 Float64.twenty,
            productThree t] ∧
      (scenarioStart.Create inMemoryRepo (mkProduct 3 "C" "C" 3 Float64.thirty)
          t).2.subscribers
        = [{ id := "X",
             received := [[mkProduct 1 "A" "A" 1 Float64.ten,
               mkProduct 2 "B" "B" 2 Float64.twenty, productThree t]] }] ∧
      ((scenarioStart.Create inMemoryRepo (mkProduct 3 "C" "C" 3 Float64.thirty)
          t).2.Delete inMemoryRepo 1).1 = none ∧
      ((scenarioStart.Create inMemoryRepo (mkProduct 3 "C" "C" 3 Float64.thirty)
          t).2.Delete inMemoryRepo 1).2.repo.products
        = [mkProduct 2 "B" "B" 2 Float64.twenty, productThree t] ∧
      ((scenarioStart.Create inMemoryRepo (mkProduct 3 "C" "C" 3 Float64.thirty)
          t).2.Delete inMemoryRepo 1).2.subscribers
        = [{ id := "X",
             received := [[mkProduct 1 "A" "A" 1 Float64.ten,
               mkProduct 2 "B" "B" 2 Float64.twenty, productThree t],
               [mkProduct 2 "B" "B" 2 Float64.twenty, productThree t]] }] :=
  ⟨rfl, rfl, rfl, rfl, rfl, rfl, rfl⟩

/-! ## Overlapping and serial `Create` calls -/

/-- C26, counterexample: two goroutines create products of id 3 on the
two-product store; when both run the scanning loop before either appends,
both calls return nil and id 3 is stored twice. -/
theorem overlapping_creates_both_succeed :
    (TwoCreates.run (mkProduct 3 "C" "C" 3 Float64.twenty) (mkProduct 3 "D" "D" 4 Float64.ten)
        { products := existing } [true, false, true, false]).first
        = CreateStage.returned none ∧
      (TwoCreates.run (mkProduct 3 "C" "C" 3 Float64.twenty)
        (mkProduct 3 "D" "D" 4 Float64.ten)
        { products := existing } [true, false, true, false]).second
        = CreateStage.returned none ∧
      (TwoCreates.run (mkProduct 3 "C" "C" 3 Float64.twenty)
        (mkProduct 3 "D" "D" 4 Float64.ten)
        { products := existing } [true, false, true, false]).repo.ids = [1, 2, 3, 3] ∧
      ¬ (TwoCreates.run (mkProduct 3 "C" "C" 3 Float64.twenty)
        (mkProduct 3 "D" "D" 4 Float64.ten)
        { products := existing } [true, false, true, false]).repo.ids.Nodup := by
  decide

theorem createStep_twice (r : InMemoryRepo) (p : Product) :
    (((r.createStep p CreateStage.atScan).1.createStep p
        (r.createStep p CreateStage.atScan).2).1,
      ((r.createStep p CreateStage.atScan).1.createStep p
        (r.createStep p CreateStage.atScan).2).2)
      = ((r.Create p).2, CreateStage.returned (r.Create p).1) := by
  unfold InMemoryRepo.Create
  cases hs : scanById p.Id r.products <;> simp [InMemoryRepo.createStep, hs]

/-- C26 (as amended): the in-memory backend takes no lock; when two `Create`
calls with the same id do not overlap, the second starting after the first
has returned, the goroutines end as the two calls run one after the other,
the two calls never both return nil, and pairwise distinct stored ids stay
pairwise distinct. -/
theorem serial_creates_exclude (r : InMemoryRepo) (pA pB : Product)
    (hid : pA.Id = pB.Id) (hnd : r.ids.Nodup) :
    TwoCreates.run pA pB r [true, true, false, false]
        = { repo := ((r.Create pA).2.Create pB).2,
            first := CreateStage.returned (r.Create pA).1,
            second := CreateStage.returned ((r.Create pA).2.Create pB).1 } ∧
      ¬ ((r.Create pA).1 = none ∧ ((r.Create pA).2.Create pB).1 = none) ∧
      ((r.Create pA).2.Create pB).2.ids.Nodup := by
  refine ⟨?_, ?_, ?_⟩
  · have h1 := createStep_twice r pA
    have h2 := createStep_twice (r.Create pA).2 pB
    simp only [Prod.mk.injEq] at h1 h2
    simp only [TwoCreates.run, List.foldl, TwoCreates.step, if_true, Bool.false_eq_true,
      if_false, h1.1, h1.2, h2.1, h2.2]
  · rintro ⟨h1, h2⟩
    rcases absent_or_present pA.Id r.products with ha | hp
    · rw [create_of_absent r pA ha] at h2
      have hpres : ∃ q ∈ r.products ++ [pA], q.Id = pB.Id := ⟨pA, by simp, hid⟩
      rw [create_of_present { products := r.products ++ [pA] } pB hpres] at h2
      simp at h2
    · rw [create_of_present r pA hp] at h1
      simp at h1
  · exact call_ids_nodup (r.Create pA).2 (RepoCall.create pB)
      (call_ids_nodup r (RepoCall.create pA) hnd)

/-- C26, witness: the two creates of id 3 on the two-product store, run one
after the other: the first returns nil, the second `errDuplicateId`. -/
theorem serial_creates_exclude_witness :
    (TwoCreates.run (mkProduct 3 "C" "C" 3 Float64.twenty) (mkProduct 3 "D" "D" 4 Float64.ten)
        { products := existing } [true, true, false, false])
      = { repo := { products := existing ++ [mkProduct 3 "C" "C" 3 Float64.twenty] },
          first := CreateStage.returned none,
          second := CreateStage.returned (some GoError.errDuplicateId) } :=
  ((serial_creates_exclude { products := existing } (mkProduct 3 "C" "C" 3 Float64.twenty)
    (mkProduct 3 "D" "D" 4 Float64.ten) rfl (by decide)).1).trans (by decide)

/-! ## The notify fan-out -/

theorem deliverAll_eq (products : List Product) (subs : List Subscriber) :
    deliverAll products subs
      = (subs.map (fun sub => sub.Update products), subs.map (fun sub => sub.Id)) := by
  induction subs with
  | nil => rfl
  | cons c rest ih => simp [deliverAll, ih]

/-- C27: over any storage port `notify` performs one `GetAll` and, when it
succeeds, calls `Update` with the fetched products once on every registry
entry, in registry order, each entry receiving that one snapshot after what
it had; the registry keeps its identities and order, and on the in-memory
store the stored list is as before. -/
theorem notify_delivers_once {σ : Type} (port : Repo σ) (s : ProductServiceImpl σ)
    (m : ProductServiceImpl InMemoryRepo) (products : List Product)
    (subs : List Subscriber) :
    (ProductServiceImpl.notify port s).repo = (port.GetAll s.repo).2 ∧
      (ProductServiceImpl.notify port s).subscribers
        = (if (port.GetAll s.repo).1.2 = none then
            (deliverAll (port.GetAll s.repo).1.1 s.subscribers).1
           else s.subscribers) ∧
      (deliverAll products subs).2 = subs.map (fun sub => sub.Id) ∧
      (deliverAll products subs).1
        = subs.map (fun sub => { id := sub.id, received := sub.received ++ [products] }) ∧
      (ProductServiceImpl.notify inMemoryRepo m).repo = m.repo ∧
      (ProductServiceImpl.notify inMemoryRepo m).subscribers
        = (deliverAll m.repo.products m.subscribers).1 ∧
      (ProductServiceImpl.notify inMemoryRepo m).subscribers.map (fun sub => sub.Id)
        = m.subscribers.map (fun sub => sub.Id) := by
  refine ⟨?_, ?_, ?_, ?_, ?_, ?_, ?_⟩
  · unfold ProductServiceImpl.notify ProductServiceImpl.GetAll
    rcases hg : port.GetAll s.repo with ⟨⟨ps, _ | err⟩, r1⟩ <;> simp
  · unfold ProductServiceImpl.notify ProductServiceImpl.GetAll
    rcases hg : port.GetAll s.repo with ⟨⟨ps, _ | err⟩, r1⟩ <;> simp [deliverAll_eq]
  · rw [deliverAll_eq]
  · rw [deliverAll_eq]
    rfl
  · rw [notify_inMemory]
  · rw [notify_inMemory, deliverAll_eq]
  · rw [notify_inMemory]
    simp [Subscriber.Update, Subscriber.Id]

/-- C27, witness: `notify` on the two-product store with subscribers "X"
and "Y" calls `Update` on "X", then on "Y", each with the two products. -/
theorem notify_delivers_once_witness :
    (ProductServiceImpl.notify inMemoryRepo twoSubscribers).subscribers
        = [{ id := "X", received := [existing] }, { id := "Y", received := [existing] }] ∧
      (deliverAll existing twoSubscribers.subscribers).2 = ["X", "Y"] :=
  ⟨((notify_delivers_once inMemoryRepo twoSubscribers twoSubscribers existing
      twoSubscribers.subscribers).2.2.2.2.2.1).trans (by decide),
    ((notify_delivers_once inMemoryRepo twoSubscribers twoSubscribers existing
      twoSubscribers.subscribers).2.2.1).trans (by decide)⟩

/-! ## A failing `GetAll` after a committed mutation -/

theorem notify_of_failed_getAll {σ : Type} (port : Repo σ) (s : ProductServiceImpl σ)
    (hg : (port.GetAll s.repo).1.2 ≠ none) :
    ProductServiceImpl.notify port s
      = { repo := (port.GetAll s.repo).2, subscribers := s.subscribers } := by
  unfold ProductServiceImpl.notify ProductServiceImpl.GetAll
  rcases hgr : port.GetAll s.repo with ⟨⟨ps, _ | err⟩, r1⟩
  · rw [hgr] at hg
    exact absurd rfl hg
  · rfl

/-- C28: over any storage port and from any state, each of the following
holds on its own premise. When the port's `Create` of the stamped valid
candidate succeeds and the `GetAll` that follows fails, `Service.Create`
returns nil; likewise `Service.Update` when the port's `Update` succeeds,
and `Service.Delete` when the port's `Delete` succeeds. In each case the
registry and what each subscriber has received are as before, and the
storage state is the committed one after that `GetAll`, no further storage
call being made. -/
theorem mutation_survives_failed_getAll {σ : Type} (port : Repo σ)
    (s : ProductServiceImpl σ) (p : Product) (id : Int) (t : Time) (r1 : σ) :
    (validateProduct p = none →
        port.Create s.repo { p with CreatedAt := t, UpdatedAt := t } = (none, r1) →
        (port.GetAll r1).1.2 ≠ none →
        s.Create port p t
          = (none, { repo := (port.GetAll r1).2, subscribers := s.subscribers })) ∧
      (validateProduct p = none →
        port.Update s.repo { p with UpdatedAt := t } = (none, r1) →
        (port.GetAll r1).1.2 ≠ none →
        s.Update port p t
          = (none, { repo := (port.GetAll r1).2, subscribers := s.subscribers })) ∧
      (port.Delete s.repo id = (none, r1) →
        (port.GetAll r1).1.2 ≠ none →
        s.Delete port id
          = (none, { repo := (port.GetAll r1).2, subscribers := s.subscribers })) := by
  refine ⟨?_, ?_, ?_⟩
  · intro hv hc hg
    unfold ProductServiceImpl.Create
    simp only [hv, hc]
    rw [notify_of_failed_getAll port { s with repo := r1 } hg]
  · intro hv hu hg
    unfold ProductServiceImpl.Update
    simp only [hv, hu]
    rw [notify_of_failed_getAll port { s with repo := r1 } hg]
  · intro hd hg
    unfold ProductServiceImpl.Delete
    simp only [hd]
    rw [notify_of_failed_getAll port { s with repo := r1 } hg]

/-- C28, witness: on a port whose `GetAll` always fails, a create of id 3 on
the empty store with subscribers "X" and "Y", and an update of id 2 and a
delete of id 1 on the two-product store with subscriber "B": each returns
nil, the mutation is stored and no subscriber receives anything. -/
theorem mutation_survives_failed_getAll_witness :
    emptyService.Create failingGetAllRepo (mkProduct 3 "C" "C" 3 Float64.twenty) 50
        = (none,
            { repo := { products :=
                [{ Id := 3, Brand := "C", Category := "C", Quantity := 3,
                   Price := Float64.twenty, CreatedAt := 50, UpdatedAt := 50 }] },
              subscribers := [freshSubscriber "X", freshSubscriber "Y"] }) ∧
      startService.Update failingGetAllRepo (mkProduct 2 "N" "N" 5 Float64.ten) 60
        = (none,
            { repo := { products := [mkProduct 1 "A" "A" 1 Float64.ten,
                { Id := 2, Brand := "N", Category := "N", Quantity := 5,
                  Price := Float64.ten, CreatedAt := 0, UpdatedAt := 60 }] },
              subscribers := [{ id := "B", received := [] }] }) ∧
      startService.Delete failingGetAllRepo 1
        = (none,
            { repo := { products := [mkProduct 2 "B" "B" 2 Float64.twenty] },
              subscribers := [{ id := "B", received := [] }] }) :=
  ⟨(mutation_survives_failed_getAll failingGetAllRepo emptyService
      (mkProduct 3 "C" "C" 3 Float64.twenty) 0 50
      { products :=
          [{ Id := 3, Brand := "C", Category := "C", Quantity := 3, Price := Float64.twenty,
             CreatedAt := 50, UpdatedAt := 50 }] }).1
      (by decide) (by decide) (by decide),
    (mutation_survives_failed_getAll failingGetAllRepo startService
      (mkProduct 2 "N" "N" 5 Float64.ten) 0 60
      { products := [mkProduct 1 "A" "A" 1 Float64.ten,
          { Id := 2, Brand := "N", Category := "N", Quantity := 5, Price := Float64.ten,
            CreatedAt := 0, UpdatedAt := 60 }] }).2.1
      (by decide) (by decide) (by decide),
    (mutation_survives_failed_getAll failingGetAllRepo startService
      (mkProduct 2 "N" "N" 5 Float64.ten) 1 60
      { products := [mkProduct 2 "B" "B" 2 Float64.twenty] }).2.2
      (by decide) (by decide)⟩

/-! ## Duplicate registrations -/

theorem registrations_map_update (i : String) (products : List Product)
    (subs : List Subscriber) :
    registrations i (subs.map (fun sub => sub.Update products)) = registrations i subs := by
  induction subs with
  | nil => rfl
  | cons c rest ih =>
    simp only [registrations, List.map_cons] at ih ⊢
    by_cases hc : c.Id = i
    · simp [List.filter_cons, Subscriber.Update, Subscriber.Id] at ih ⊢
      simp only [Subscriber.Id] at hc
      simp [hc, ih]
    · simp [List.filter_cons, Subscriber.Update, Subscriber.Id] at ih ⊢
      simp only [Subscriber.Id] at hc
      simp [hc, ih]

theorem receivedBy_map_update (i : String) (products : List Product)
    (subs : List Subscriber) :
    receivedBy i (subs.map (fun sub => sub.Update products))
      = receivedBy i subs + registrations i subs := by
  induction subs with
  | nil => rfl
  | cons c rest ih =>
    simp only [receivedBy, registrations, List.map_cons] at ih ⊢
    by_cases hc : c.Id = i
    · simp [List.filter_cons, Subscriber.Update, Subscriber.Id] at ih ⊢
      simp only [Subscriber.Id] at hc
      simp [hc, ih]
      omega
    · simp [List.filter_cons, Subscriber.Update, Subscriber.Id] at ih ⊢
      simp only [Subscriber.Id] at hc
      simp [hc, ih]

/-- C29: `subscribe` of a subscriber whose non-empty identity is already in
the registry returns nil and appends a further entry, so the identity has
one registration more; and every service mutation on the in-memory store
that returns nil hands one snapshot to each entry, so an identity with k
registrations receives k snapshots, its registrations staying k. -/
theorem duplicate_registrations_all_notified (s m : ProductServiceImpl InMemoryRepo)
    (sub : Subscriber) (c : ServiceCall) (i : String)
    (hne : sub.Id ≠ "") (hdup : ∃ e ∈ s.subscribers, e.Id = sub.Id)
    (hok : (m.call inMemoryRepo c).1 = none) :
    (s.subscribe sub).1 = none ∧
      (s.subscribe sub).2.subscribers = s.subscribers ++ [sub] ∧
      registrations sub.Id (s.subscribe sub).2.subscribers
        = registrations sub.Id s.subscribers + 1 ∧
      2 ≤ registrations sub.Id (s.subscribe sub).2.subscribers ∧
      receivedBy i (m.call inMemoryRepo c).2.subscribers
        = receivedBy i m.subscribers + registrations i m.subscribers ∧
      registrations i (m.call inMemoryRepo c).2.subscribers
        = registrations i m.subscribers := by
  have hs : s.subscribe sub = (none, { s with subscribers := s.subscribers ++ [sub] }) := by
    simp [ProductServiceImpl.subscribe, hne]
  have hreg : registrations sub.Id (s.subscribers ++ [sub])
      = registrations sub.Id s.subscribers + 1 := by
    simp [registrations, List.filter_append, List.filter_cons]
  have hpos : 1 ≤ registrations sub.Id s.subscribers := by
    obtain ⟨e, he, hid⟩ := hdup
    simp only [registrations]
    apply List.length_pos_of_mem (a := e)
    simp [List.mem_filter, he, hid]
  have hsubs := call_subscribers m c
  rw [if_pos hok] at hsubs
  rw [hs, hsubs]
  refine ⟨rfl, rfl, hreg, ?_, receivedBy_map_update i _ _, registrations_map_update i _ _⟩
  simp only [hreg]
  omega

/-- C29, witness: subscribing a second "X" to the registry "X", "Y" and then
creating id 3: the two "X" entries receive two snapshots together. -/
theorem duplicate_registrations_all_notified_witness :
    (twoSubscribers.subscribe (freshSubscriber "X")).2.subscribers
        = [freshSubscriber "X", freshSubscriber "Y", freshSubscriber "X"] ∧
      receivedBy "X" ((twoSubscribers.subscribe (freshSubscriber "X")).2.call inMemoryRepo
        (ServiceCall.create (mkProduct 3 "C" "C" 3 Float64.twenty) 50)).2.subscribers = 2 :=
  ⟨(duplicate_registrations_all_notified twoSubscribers
      (twoSubscribers.subscribe (freshSubscriber "X")).2 (freshSubscriber "X")
      (ServiceCall.create (mkProduct 3 "C" "C" 3 Float64.twenty) 50) "X"
      (by decide) ⟨freshSubscriber "X", by decide, rfl⟩ (by decide)).2.1,
    ((duplicate_registrations_all_notified twoSubscribers
      (twoSubscribers.subscribe (freshSubscriber "X")).2 (freshSubscriber "X")
      (ServiceCall.create (mkProduct 3 "C" "C" 3 Float64.twenty) 50) "X"
      (by decide) ⟨freshSubscriber "X", by decide, rfl⟩ (by decide)).2.2.2.2.1).trans
      (by decide)⟩

/-! ## Read-your-writes on the in-memory store -/

/-- C30: on the in-memory store, for every store state and product, each
of the following holds on its own premise. When `Create(p)` returns nil the
`GetById` of p's id right after returns exactly p with a nil error; when
`Update(p)` returns nil the `GetById` of p's id right after returns p with
`CreatedAt` replaced by that of the record `GetById` returned before the
update, with a nil error. -/
theorem read_your_writes (r : InMemoryRepo) (p : Product) :
    ((r.Create p).1 = none → ((r.Create p).2.GetById p.Id).1 = (p, none)) ∧
      ((r.Update p).1 = none →
        ((r.Update p).2.GetById p.Id).1
          = ({ p with CreatedAt := (r.GetById p.Id).1.1.CreatedAt }, none)) := by
  constructor
  · intro hc
    rcases absent_or_present p.Id r.products with ha | hp
    · rw [create_of_absent r p ha,
        getById_of_first { products := r.products ++ [p] } p.Id r.products [] p rfl ha rfl]
    · rw [create_of_present r p hp] at hc
      simp at hc
  · intro hu
    rcases absent_or_present p.Id r.products with ha | hp
    · rw [update_of_absent r p ha] at hu
      simp at hu
    · obtain ⟨pre, cur, post, hps, hcur, hpre⟩ := exists_first_of_mem p.Id r.products hp
      rw [update_of_first r p pre post cur hps hpre hcur,
        getById_of_first r p.Id pre post cur hps hpre hcur,
        getById_of_first { products := pre ++ { p with CreatedAt := cur.CreatedAt } :: post }
          p.Id pre post { p with CreatedAt := cur.CreatedAt } rfl hpre rfl]

/-- C30, witness: the first create on the empty store, a create of id 3 on
the two-product store, and an update of id 2 there with a candidate that
carries `CreatedAt` 99. -/
theorem read_your_writes_witness :
    ((NewInMemoryRepo.Create (mkProduct 3 "C" "C" 3 Float64.twenty)).2.GetById 3).1
        = (mkProduct 3 "C" "C" 3 Float64.twenty, none) ∧
      ((InMemoryRepo.Create { products := existing }
        (mkProduct 3 "C" "C" 3 Float64.twenty)).2.GetById 3).1
        = (mkProduct 3 "C" "C" 3 Float64.twenty, none) ∧
      ((InMemoryRepo.Update { products := existing }
        { Id := 2, Brand := "N", Category := "M", Quantity := 5, Price := Float64.ten,
          CreatedAt := 99, UpdatedAt := 100 }).2.GetById 2).1
        = ({ Id := 2, Brand := "N", Category := "M", Quantity := 5, Price := Float64.ten,
             CreatedAt := 0, UpdatedAt := 100 }, none) :=
  ⟨(read_your_writes NewInMemoryRepo (mkProduct 3 "C" "C" 3 Float64.twenty)).1 (by decide),
    (read_your_writes { products := existing } (mkProduct 3 "C" "C" 3 Float64.twenty)).1
      (by decide),
    (read_your_writes { products := existing }
      { Id := 2, Brand := "N", Category := "M", Quantity := 5, Price := Float64.ten,
        CreatedAt := 99, UpdatedAt := 100 }).2 (by decide)⟩

end Warehouse
